import Mathlib

/-! # gnatsd `server/signal.go`: command-to-signal dispatch and pid resolution

A shallow embedding of `ProcessSignal`, `resolvePids` and `handleSignals` from
`src/server/signal.go`, followed by the properties proved about them.

Modelling conventions.

* A Go `string` / `[]byte` is a Lean `String`.  The code inspects its text only
  through `strings.Split(_, "\n")`, `== ""` and `strconv.Atoi`, all of which look
  at the ASCII bytes `'\n'`, `'+'`, `'-'`, `'0'..'9'` only.
* A Go `int` is a Lean `Int`; `strconv.Atoi` rejects whatever does not fit the
  64-bit `int`, so no value ever wraps around.
* A Go `error` is `Option GoError` (`none` is `nil`); a `([]int, error)` result
  is an `Except`.
* The two swappable global bindings `kill` and `pgrep`, `os.Getpid` and the
  `%q` verb of `fmt` are the fields of `Env`.  Every function returns, next to
  its Go result, the list of calls it made to `pgrep` and `kill`, in order.
* The goroutine of `handleSignals` is its loop body folded over the list of
  signals read from the channel, in the order they are read; the state records
  what was passed to `signal.Notify`, whether `os.Exit` was called, and the
  events (log lines, callbacks, exit) in order.  The callbacks of the server
  are events; `s.Reload()` returns the error the `Server` value assigns to
  that call.
-/

namespace server

/-! ## Data model -/

/-- The `syscall.Signal` type: a signal number. -/
structure Signal where
  num : Nat
  deriving DecidableEq, Repr

/-- The `syscall.SIGHUP` constant. -/
def Signal.SIGHUP : Signal := ⟨1⟩
/-- The `syscall.SIGINT` constant. -/
def Signal.SIGINT : Signal := ⟨2⟩
/-- The `syscall.SIGKILL` constant. -/
def Signal.SIGKILL : Signal := ⟨9⟩
/-- The `syscall.SIGUSR1` constant (its Linux value). -/
def Signal.SIGUSR1 : Signal := ⟨10⟩

/-- Modelled from the spec: the `Command` type and its four constants are
declared outside `signal.go`.  The spec's command surface is "a command value
in {stop, quit, reopen, reload}", and `ProcessSignal` formats a command with
the string verb `%q`, so a command is a string. -/
abbrev Command := String

/-- Modelled from the spec: the `Stop` command. -/
def CommandStop : Command := "stop"
/-- Modelled from the spec: the `Quit` command. -/
def CommandQuit : Command := "quit"
/-- Modelled from the spec: the `Reopen` command. -/
def CommandReopen : Command := "reopen"
/-- Modelled from the spec: the `Reload` command. -/
def CommandReload : Command := "reload"

/-- The Go error values that reach this code.  `errorString` is what
`errors.New` and `fmt.Errorf` build; `ExitError` is `*exec.ExitError`;
`ExecError` is `*exec.Error` (the executable could not be started); `Errno` is
the `syscall.Errno` that `syscall.Kill` returns. -/
inductive GoError where
  | errorString (msg : String)
  | ExitError (status : Int)
  | ExecError (name : String)
  | Errno (code : Nat)
  deriving DecidableEq, Repr

/-- The call `errors.New(msg)`. -/
def errorsNew (msg : String) : GoError := GoError.errorString msg

/-- A call to one of the two swappable global bindings. -/
inductive Call where
  | pgrep
  | kill (pid : Int) (signal : Signal)
  deriving DecidableEq, Repr

/-- What surrounds one run of `ProcessSignal`: the value the `pgrep` binding
returns (output bytes and error), the value of `os.Getpid()`, the `kill`
binding, and `strconv.Quote`, which `fmt` applies for the verb `%q`. -/
structure Env where
  pgrepOutput : String
  pgrepErr : Option GoError
  Getpid : Int
  kill : Int → Signal → Option GoError
  Quote : String → String

/-- The calls made and the `error` returned by `ProcessSignal`. -/
structure Outcome where
  calls : List Call
  err : Option GoError

/-! ## Library functions -/

/-- The size in bits of a Go `int` (`strconv.IntSize`). -/
def intSize : Nat := 64

/-- The digit loop of `strconv.ParseUint(s, 10, _)`: the value of a string of
decimal digits read after the accumulator `n`, `none` when a character is not
a decimal digit. -/
def parseDigits : List Char → Nat → Option Nat
  | [], n => some n
  | d :: ds, n =>
    if '0' ≤ d ∧ d ≤ '9' then parseDigits ds (n * 10 + (d.toNat - '0'.toNat))
    else none

/-- The function `strconv.ParseUint(s, 10, _)` before its range check: an
empty string is a syntax error. -/
def ParseUint (s : List Char) : Option Nat :=
  match s with
  | [] => none
  | _ :: _ => parseDigits s 0

/-- The function `strconv.Atoi`: an optional sign `+` or `-`, then one or more
decimal digits, the value within the range of `int`; `none` stands for a
non-nil error (`ErrSyntax` or `ErrRange`). -/
def Atoi (s : String) : Option Int :=
  match s.data with
  | [] => none
  | c :: cs =>
    let neg := decide (c = '-')
    let digits := if c = '+' ∨ c = '-' then cs else c :: cs
    match ParseUint digits with
    | none => none
    | some un =>
      let cutoff := 2 ^ (intSize - 1)
      if !neg && un ≥ cutoff then none
      else if neg && un > cutoff then none
      else some (if neg then -(un : Int) else (un : Int))

/-- The function `strings.Split(s, "\n")` on the characters of `s`: the pieces
between the separators, `[""]` for the empty string. -/
def splitNewline : List Char → List (List Char)
  | [] => [[]]
  | c :: cs =>
    if c = '\n' then [] :: splitNewline cs
    else
      match splitNewline cs with
      | [] => [[c]]
      | piece :: pieces => (c :: piece) :: pieces

/-- The call `strings.Split(s, "\n")`. -/
def Split (s : String) : List String :=
  (splitNewline s.data).map String.mk

/-- The verb `%d` of `fmt` on an `int`: its decimal rendering. -/
def Sprintf_d (p : Int) : String := toString p

/-! ## `resolvePids` -/

/-- The `for _, pidStr := range pidStrs` loop of `resolvePids`, with `pids` the
slice built so far. -/
def resolveLoop (myPid : Int) : List String → List Int → Except GoError (List Int)
  | [], pids => Except.ok pids
  | pidStr :: rest, pids =>
    if pidStr = "" then resolveLoop myPid rest pids
    else
      match Atoi pidStr with
      | none => Except.error (errorsNew "unable to resolve pid, try providing one")
      | some pid =>
        if pid = myPid then resolveLoop myPid rest pids
        else resolveLoop myPid rest (pids ++ [pid])

/-- The function `resolvePids`: the pids of all running gnatsd processes, with
the calls it made. -/
def resolvePids (env : Env) : List Call × Except GoError (List Int) :=
  let calls := [Call.pgrep]
  match env.pgrepErr with
  | some (GoError.ExitError _) =>
    (calls, resolveLoop env.Getpid (Split env.pgrepOutput) [])
  | some _ =>
    (calls, Except.error (errorsNew "unable to resolve pid, try providing one"))
  | none =>
    (calls, resolveLoop env.Getpid (Split env.pgrepOutput) [])

/-! ## `ProcessSignal` -/

/-- The `for _, p := range pids` loop of `ProcessSignal` that builds the
message of the multiple-processes error. -/
def multipleLoop : List Int → String → String → String
  | [], errStr, _ => errStr
  | p :: ps, errStr, pre => multipleLoop ps (errStr ++ (pre ++ Sprintf_d p)) "\n"

/-- The `switch command` at the end of `ProcessSignal`, run with the resolved
`pid` after the calls `before`. -/
def dispatch (env : Env) (command : Command) (pid : Int) (before : List Call) : Outcome :=
  if command = CommandStop then
    ⟨before ++ [Call.kill pid Signal.SIGKILL], env.kill pid Signal.SIGKILL⟩
  else if command = CommandQuit then
    ⟨before ++ [Call.kill pid Signal.SIGINT], env.kill pid Signal.SIGINT⟩
  else if command = CommandReopen then
    ⟨before ++ [Call.kill pid Signal.SIGUSR1], env.kill pid Signal.SIGUSR1⟩
  else if command = CommandReload then
    ⟨before ++ [Call.kill pid Signal.SIGHUP], env.kill pid Signal.SIGHUP⟩
  else
    ⟨before, some (GoError.errorString ("unknown signal " ++ env.Quote command))⟩

/-- The function `ProcessSignal`: sends the signal of `command` to the process
named by `pidStr`, or to the single running instance when `pidStr` is empty. -/
def ProcessSignal (env : Env) (command : Command) (pidStr : String) : Outcome :=
  if pidStr = "" then
    match resolvePids env with
    | (calls, Except.error err) => ⟨calls, some err⟩
    | (calls, Except.ok pids) =>
      match pids with
      | [] => ⟨calls, some (errorsNew "no gnatsd processes running")⟩
      | [pid] => dispatch env command pid calls
      | _ :: _ :: _ =>
        ⟨calls, some (errorsNew (multipleLoop pids "multiple gnatsd processes running:\n" ""))⟩
  else
    match Atoi pidStr with
    | none => ⟨[], some (GoError.errorString ("invalid pid: " ++ pidStr))⟩
    | some p => dispatch env command p []

/-- Whether a call is a call of `kill`. -/
def Call.isKill : Call → Bool
  | Call.pgrep => false
  | Call.kill _ _ => true

/-- The four recognised commands, in the order of the `switch`. -/
def recognised : List Command :=
  [CommandStop, CommandQuit, CommandReopen, CommandReload]

/-- The pid that `ProcessSignal` resolves before it reaches the `switch`: the
integer parsed from a non-empty `pidStr`, or the single candidate of
`resolvePids` for an empty one. -/
def Resolved (env : Env) (pidStr : String) (p : Int) : Prop :=
  (pidStr ≠ "" ∧ Atoi pidStr = some p) ∨
    (pidStr = "" ∧ (resolvePids env).2 = Except.ok [p])

/-- An environment for the examples: `pgrep` returns `output` and `err`, the
caller has pid `myPid`, `kill` succeeds, and `%q` wraps its argument in double
quotes (what `strconv.Quote` does to printable ASCII text without quotes or
backslashes). -/
def exampleEnv (output : String) (err : Option GoError) (myPid : Int) : Env :=
  ⟨output, err, myPid, fun _ _ => none, fun s => "\"" ++ s ++ "\""⟩

/-- The candidate list in the words of the resolver's contract: the non-empty
lines, each parsed as an integer, without the occurrences of the own pid. -/
def candidates (myPid : Int) (lines : List String) : List Int :=
  ((lines.filter (fun l => decide (l ≠ ""))).filterMap Atoi).filter
    (fun pid => decide (pid ≠ myPid))

/-- Whether the discovery facility failed with an error other than a non-zero
exit, the `default` case of the type switch in `resolvePids`. -/
def pgrepFailed (env : Env) : Prop :=
  ∃ e, env.pgrepErr = some e ∧ ∀ status, e ≠ GoError.ExitError status

/-- An environment for the examples in which `kill` fails: `pgrep` returns
`output` with no error, the caller has pid 1, and `kill` returns the
`syscall.Errno` 3 (`ESRCH`, no such process). -/
def noSuchProcessEnv (output : String) : Env :=
  ⟨output, none, 1, fun _ _ => some (GoError.Errno 3), fun s => "\"" ++ s ++ "\""⟩

/-- The reference list of the resolver: the discovery output split on "\n",
the empty lines dropped, each remaining line parsed with `strconv.Atoi`, and
every occurrence of the own pid removed, order and multiplicity kept. -/
def referencePids (output : String) (myPid : Int) : List Int :=
  candidates myPid (Split output)

/-! ## `handleSignals` -/

/-- What the listener of `handleSignals` does, seen from outside: its calls of
the logging methods (with the format and its argument), of the callbacks
`CloseUnixSocket`, `ReOpenLogFile` and `Reload` of the server, and of
`os.Exit`. -/
inductive Event where
  | Debugf (format : String) (sig : Signal)
  | CloseUnixSocket
  | Noticef (format : String)
  | Exit (code : Int)
  | ReOpenLogFile
  | Reload
  | Errorf (format : String) (err : GoError)
  deriving DecidableEq, Repr

/-- What `handleSignals` reads of its receiver `s`: the option `NoSigs` of
`s.getOpts()`, and the `error` that the call number `n` (from 0) of `s.Reload()`
returns. -/
structure Server where
  NoSigs : Bool
  Reload : Nat → Option GoError

/-- The state of the listener: the signals passed to `signal.Notify` for its
channel, whether the goroutine with the receive loop was started, the status
passed to `os.Exit` once the process has exited (`none` while it runs), the
number of calls of `s.Reload()` so far, and the events so far, in order. -/
structure Listener where
  notified : List Signal
  looping : Bool
  exited : Option Int
  reloads : Nat
  trace : List Event

/-- The listener before `handleSignals`: nothing registered, no loop, the
process running. -/
def Listener.idle : Listener := ⟨[], false, none, 0, []⟩

/-- One iteration of `for sig := range c`: the body of the loop on the received
signal `sig`.  After `os.Exit` the process is gone and nothing runs. -/
def handle (s : Server) (st : Listener) (sig : Signal) : Listener :=
  match st.exited with
  | some _ => st
  | none =>
    let trace := st.trace ++ [Event.Debugf "Trapped %q signal" sig]
    if sig = Signal.SIGINT then
      { st with
        trace := trace ++
          [Event.CloseUnixSocket, Event.Noticef "Server Exiting..", Event.Exit 0]
        exited := some 0 }
    else if sig = Signal.SIGUSR1 then
      { st with trace := trace ++ [Event.ReOpenLogFile] }
    else if sig = Signal.SIGHUP then
      match s.Reload st.reloads with
      | some err =>
        { st with
          trace := trace ++
            [Event.Reload, Event.Errorf "Failed to reload server configuration: %s" err]
          reloads := st.reloads + 1 }
      | none =>
        { st with trace := trace ++ [Event.Reload], reloads := st.reloads + 1 }
    else
      { st with trace := trace }

/-- The loop `for sig := range c` on the signals received from the channel, in
order. -/
def receiveLoop (s : Server) : Listener → List Signal → Listener
  | st, [] => st
  | st, sig :: rest => receiveLoop s (handle s st sig) rest

/-- The method `handleSignals`, followed by the run of the goroutine it starts
on the signals `received` from the channel. -/
def handleSignals (s : Server) (st : Listener) (received : List Signal) : Listener :=
  if s.NoSigs then st
  else
    receiveLoop s
      { st with
        notified := st.notified ++ [Signal.SIGINT, Signal.SIGUSR1, Signal.SIGHUP]
        looping := true }
      received

/-- Whether an event is a call of `Debugf`. -/
def Event.isDebugf : Event → Bool
  | Event.Debugf _ _ => true
  | _ => false

/-- Whether an event is a call of one of the callbacks of the server. -/
def Event.isCallback : Event → Bool
  | Event.CloseUnixSocket => true
  | Event.ReOpenLogFile => true
  | Event.Reload => true
  | _ => false

/-- A server for the examples: signals enabled, and `Reload` failing at its
first call only. -/
def exampleServer : Server :=
  ⟨false, fun n => if n = 0 then some (GoError.errorString "bad config") else none⟩

/-! ## Unfolding lemmas -/

theorem resolvePids_fst (env : Env) : (resolvePids env).1 = [Call.pgrep] := by
  unfold resolvePids
  split <;> rfl

theorem resolvePids_eta (env : Env) :
    resolvePids env = ([Call.pgrep], (resolvePids env).2) := by
  rw [← resolvePids_fst env]

theorem ProcessSignal_empty_error (env : Env) (command : Command) (e : GoError)
    (h : (resolvePids env).2 = Except.error e) :
    ProcessSignal env command "" = ⟨[Call.pgrep], some e⟩ := by
  unfold ProcessSignal
  rw [resolvePids_eta env, h]
  rfl

theorem ProcessSignal_empty_nil (env : Env) (command : Command)
    (h : (resolvePids env).2 = Except.ok []) :
    ProcessSignal env command "" =
      ⟨[Call.pgrep], some (errorsNew "no gnatsd processes running")⟩ := by
  unfold ProcessSignal
  rw [resolvePids_eta env, h]
  rfl

theorem ProcessSignal_empty_single (env : Env) (command : Command) (p : Int)
    (h : (resolvePids env).2 = Except.ok [p]) :
    ProcessSignal env command "" = dispatch env command p [Call.pgrep] := by
  unfold ProcessSignal
  rw [resolvePids_eta env, h]
  rfl

theorem ProcessSignal_empty_many (env : Env) (command : Command) (pids : List Int)
    (h : (resolvePids env).2 = Except.ok pids) (hlen : 2 ≤ pids.length) :
    ProcessSignal env command "" =
      ⟨[Call.pgrep],
        some (errorsNew (multipleLoop pids "multiple gnatsd processes running:\n" ""))⟩ := by
  unfold ProcessSignal
  rw [resolvePids_eta env, h]
  match pids, hlen with
  | _ :: _ :: _, _ => rfl

theorem ProcessSignal_explicit_none (env : Env) (command : Command) (pidStr : String)
    (hne : pidStr ≠ "") (h : Atoi pidStr = none) :
    ProcessSignal env command pidStr =
      ⟨[], some (GoError.errorString ("invalid pid: " ++ pidStr))⟩ := by
  unfold ProcessSignal
  rw [if_neg hne, h]

theorem ProcessSignal_explicit_some (env : Env) (command : Command) (pidStr : String)
    (p : Int) (hne : pidStr ≠ "") (h : Atoi pidStr = some p) :
    ProcessSignal env command pidStr = dispatch env command p [] := by
  unfold ProcessSignal
  rw [if_neg hne, h]

/-- Once a pid is resolved, `ProcessSignal` is the `switch` run on it, after a
call of `pgrep` exactly when `pidStr` is empty. -/
theorem ProcessSignal_resolved (env : Env) (command : Command) (pidStr : String)
    (p : Int) (h : Resolved env pidStr p) :
    ProcessSignal env command pidStr =
      dispatch env command p (if pidStr = "" then [Call.pgrep] else []) := by
  rcases h with ⟨hne, hp⟩ | ⟨he, hp⟩
  · rw [if_neg hne]
    exact ProcessSignal_explicit_some env command pidStr p hne hp
  · subst he
    rw [if_pos rfl]
    exact ProcessSignal_empty_single env command p hp

theorem Atoi_empty : Atoi "" = none := rfl

/-! ## The `switch` -/

theorem dispatch_Stop (env : Env) (pid : Int) (before : List Call) :
    dispatch env CommandStop pid before =
      ⟨before ++ [Call.kill pid Signal.SIGKILL], env.kill pid Signal.SIGKILL⟩ := by
  simp [dispatch]

theorem dispatch_Quit (env : Env) (pid : Int) (before : List Call) :
    dispatch env CommandQuit pid before =
      ⟨before ++ [Call.kill pid Signal.SIGINT], env.kill pid Signal.SIGINT⟩ := by
  simp [dispatch, CommandQuit, CommandStop]

theorem dispatch_Reopen (env : Env) (pid : Int) (before : List Call) :
    dispatch env CommandReopen pid before =
      ⟨before ++ [Call.kill pid Signal.SIGUSR1], env.kill pid Signal.SIGUSR1⟩ := by
  simp [dispatch, CommandReopen, CommandQuit, CommandStop]

theorem dispatch_Reload (env : Env) (pid : Int) (before : List Call) :
    dispatch env CommandReload pid before =
      ⟨before ++ [Call.kill pid Signal.SIGHUP], env.kill pid Signal.SIGHUP⟩ := by
  simp [dispatch, CommandReload, CommandReopen, CommandQuit, CommandStop]

theorem dispatch_unknown (env : Env) (command : Command) (pid : Int) (before : List Call)
    (hc : command ∉ recognised) :
    dispatch env command pid before =
      ⟨before, some (GoError.errorString ("unknown signal " ++ env.Quote command))⟩ := by
  simp only [recognised, List.mem_cons, List.mem_singleton, not_or, List.mem_nil_iff,
    or_false] at hc
  obtain ⟨h1, h2, h3, h4⟩ := hc
  simp [dispatch, h1, h2, h3, h4]

/-- The `switch` calls `kill` at most once, on the resolved pid, and makes no
other call. -/
theorem dispatch_calls (env : Env) (command : Command) (pid : Int) (before : List Call) :
    (dispatch env command pid before).calls = before ∨
      ∃ sig, (dispatch env command pid before).calls = before ++ [Call.kill pid sig] := by
  unfold dispatch
  split_ifs
  · exact Or.inr ⟨_, rfl⟩
  · exact Or.inr ⟨_, rfl⟩
  · exact Or.inr ⟨_, rfl⟩
  · exact Or.inr ⟨_, rfl⟩
  · exact Or.inl rfl

theorem mem_recognised (command : Command) :
    command ∈ recognised ↔
      command = CommandStop ∨ command = CommandQuit ∨ command = CommandReopen ∨
        command = CommandReload := by
  simp [recognised]

/-- For a recognised command the `switch` calls `kill` once, on the resolved
pid, and returns what `kill` returns. -/
theorem dispatch_recognised (env : Env) (command : Command) (pid : Int)
    (before : List Call) (hc : command ∈ recognised) :
    ∃ sig, dispatch env command pid before =
      ⟨before ++ [Call.kill pid sig], env.kill pid sig⟩ := by
  rcases (mem_recognised command).1 hc with h | h | h | h <;> subst h
  · exact ⟨_, dispatch_Stop env pid before⟩
  · exact ⟨_, dispatch_Quit env pid before⟩
  · exact ⟨_, dispatch_Reopen env pid before⟩
  · exact ⟨_, dispatch_Reload env pid before⟩

/-- Every call of `kill` made by `ProcessSignal` on an empty `pidStr` is on
the single candidate of `resolvePids`. -/
theorem kill_mem_empty (env : Env) (command : Command) (p : Int) (sig : Signal)
    (h : Call.kill p sig ∈ (ProcessSignal env command "").calls) :
    (resolvePids env).2 = Except.ok [p] := by
  cases hr : (resolvePids env).2 with
  | error e =>
    rw [ProcessSignal_empty_error env command e hr] at h
    simp at h
  | ok pids =>
    match pids, hr with
    | [], hr =>
      rw [ProcessSignal_empty_nil env command hr] at h
      simp at h
    | [q], hr =>
      rw [ProcessSignal_empty_single env command q hr] at h
      rcases dispatch_calls env command q [Call.pgrep] with hd | ⟨sig', hd⟩
      · rw [hd] at h
        simp at h
      · rw [hd] at h
        simp at h
        rw [h.1]
    | a :: b :: rest, hr =>
      rw [ProcessSignal_empty_many env command (a :: b :: rest) hr (by simp)] at h
      simp at h

/-- Every call of `kill` made by `ProcessSignal` on a non-empty `pidStr` is on
the integer that `Atoi` parses from it. -/
theorem kill_mem_explicit (env : Env) (command : Command) (pidStr : String) (p : Int)
    (sig : Signal) (hne : pidStr ≠ "")
    (h : Call.kill p sig ∈ (ProcessSignal env command pidStr).calls) :
    Atoi pidStr = some p := by
  cases ha : Atoi pidStr with
  | none =>
    rw [ProcessSignal_explicit_none env command pidStr hne ha] at h
    simp at h
  | some q =>
    rw [ProcessSignal_explicit_some env command pidStr q hne ha] at h
    rcases dispatch_calls env command q [] with hd | ⟨sig', hd⟩
    · rw [hd] at h
      simp at h
    · rw [hd] at h
      simp at h
      rw [h.1]

/-- `ProcessSignal` calls `kill` at most once. -/
theorem kill_count_le_one (env : Env) (command : Command) (pidStr : String) :
    ((ProcessSignal env command pidStr).calls.filter Call.isKill).length ≤ 1 := by
  by_cases he : pidStr = ""
  · subst he
    cases hr : (resolvePids env).2 with
    | error e => rw [ProcessSignal_empty_error env command e hr]; simp [Call.isKill]
    | ok pids =>
      match pids, hr with
      | [], hr => rw [ProcessSignal_empty_nil env command hr]; simp [Call.isKill]
      | [q], hr =>
        rw [ProcessSignal_empty_single env command q hr]
        rcases dispatch_calls env command q [Call.pgrep] with hd | ⟨sig', hd⟩ <;>
          rw [hd] <;> simp [Call.isKill]
      | a :: b :: rest, hr =>
        rw [ProcessSignal_empty_many env command (a :: b :: rest) hr (by simp)]
        simp [Call.isKill]
  · cases ha : Atoi pidStr with
    | none => rw [ProcessSignal_explicit_none env command pidStr he ha]; simp
    | some q =>
      rw [ProcessSignal_explicit_some env command pidStr q he ha]
      rcases dispatch_calls env command q [] with hd | ⟨sig', hd⟩ <;>
        rw [hd] <;> simp [Call.isKill]

/-! ## Claims C1 and C2: when and on what `kill` is called -/

/-- C1. A single call of `ProcessSignal` invokes `kill` at most once; when
`pidStr` is empty it invokes `kill` only if the candidate list returned by
`resolvePids` has exactly one element `p`, and then the pid passed to `kill` is
`p`; with zero or with two or more candidates `kill` is never invoked. -/
theorem ProcessSignal_kill_needs_one_candidate (env : Env) (command : Command)
    (pidStr : String) :
    ((ProcessSignal env command pidStr).calls.filter Call.isKill).length ≤ 1 ∧
    (pidStr = "" →
      (∀ p sig, Call.kill p sig ∈ (ProcessSignal env command pidStr).calls →
        (resolvePids env).2 = Except.ok [p]) ∧
      (∀ pids, (resolvePids env).2 = Except.ok pids → pids.length ≠ 1 →
        ∀ p sig, Call.kill p sig ∉ (ProcessSignal env command pidStr).calls)) := by
  refine ⟨kill_count_le_one env command pidStr, ?_⟩
  intro he
  subst he
  refine ⟨fun p sig h => kill_mem_empty env command p sig h, ?_⟩
  intro pids hr hlen p sig h
  have h1 := kill_mem_empty env command p sig h
  rw [hr] at h1
  injection h1 with h2
  subst h2
  exact hlen rfl

/-- C1, at concrete inputs: with the two candidates 1234 and 5678 no call of
`kill` is made, and with the single candidate 1234 the one call of `kill` is on
1234. -/
theorem ProcessSignal_kill_needs_one_candidate_witness :
    (∀ p sig, Call.kill p sig ∉
      (ProcessSignal (exampleEnv "1234\n5678\n" none 1) CommandQuit "").calls) ∧
    (ProcessSignal (exampleEnv "1234\n5678\n" none 5678) CommandQuit "").calls =
      [Call.pgrep, Call.kill 1234 Signal.SIGINT] :=
  ⟨((ProcessSignal_kill_needs_one_candidate (exampleEnv "1234\n5678\n" none 1)
      CommandQuit "").2 rfl).2 [1234, 5678] (by rfl) (by decide),
   by decide⟩

/-- C2. For a non-empty `pidStr` that `strconv.Atoi` parses to `n` and a
recognised command, `ProcessSignal` never invokes `pgrep` and its only call is
`kill` on `n`, and its outcome is the same whatever the discovery output, the
discovery error and the own pid are. -/
theorem ProcessSignal_explicit_pid (env : Env) (command : Command) (pidStr : String)
    (n : Int) (hne : pidStr ≠ "") (hn : Atoi pidStr = some n)
    (hc : command ∈ recognised) :
    Call.pgrep ∉ (ProcessSignal env command pidStr).calls ∧
    (∃ sig, (ProcessSignal env command pidStr).calls = [Call.kill n sig]) ∧
    ∀ (output : String) (err : Option GoError) (myPid : Int),
      ProcessSignal ⟨output, err, myPid, env.kill, env.Quote⟩ command pidStr =
        ProcessSignal env command pidStr := by
  obtain ⟨sig, hs⟩ := dispatch_recognised env command n [] hc
  have h := ProcessSignal_explicit_some env command pidStr n hne hn
  rw [hs] at h
  refine ⟨?_, ⟨sig, ?_⟩, ?_⟩
  · rw [h]
    simp
  · rw [h]
    rfl
  · intro output err myPid
    rw [ProcessSignal_explicit_some env command pidStr n hne hn,
      ProcessSignal_explicit_some _ command pidStr n hne hn]
    rfl

/-- C2, at a concrete input: `pidStr` "5678" with the caller's own pid 5678 and
a discovery that would list two other processes. -/
theorem ProcessSignal_explicit_pid_witness :
    (ProcessSignal (exampleEnv "1\n2\n" none 5678) CommandReload "5678").calls =
      [Call.kill 5678 Signal.SIGHUP] ∧
    Call.pgrep ∉ (ProcessSignal (exampleEnv "1\n2\n" none 5678) CommandReload "5678").calls :=
  ⟨by decide,
   (ProcessSignal_explicit_pid (exampleEnv "1\n2\n" none 5678) CommandReload "5678" 5678
      (by decide) (by decide) (by decide)).1⟩

/-! ## The loop of `resolvePids` -/

theorem candidates_nil (myPid : Int) : candidates myPid [] = [] := rfl

theorem candidates_cons_empty (myPid : Int) (rest : List String) :
    candidates myPid ("" :: rest) = candidates myPid rest := by
  simp [candidates]

theorem candidates_cons_own (myPid : Int) (l : String) (rest : List String)
    (hl : l ≠ "") (ha : Atoi l = some myPid) :
    candidates myPid (l :: rest) = candidates myPid rest := by
  simp [candidates, hl, ha]

theorem candidates_cons_other (myPid pid : Int) (l : String) (rest : List String)
    (hl : l ≠ "") (ha : Atoi l = some pid) (hp : pid ≠ myPid) :
    candidates myPid (l :: rest) = pid :: candidates myPid rest := by
  simp [candidates, hl, ha, hp]

/-- When the loop of `resolvePids` succeeds, it has appended the candidates of
the contract to the slice it started from. -/
theorem resolveLoop_ok_inv (myPid : Int) (lines : List String) :
    ∀ (acc pids : List Int), resolveLoop myPid lines acc = Except.ok pids →
      pids = acc ++ candidates myPid lines := by
  induction lines with
  | nil =>
    intro acc pids h
    simp only [resolveLoop] at h
    injection h with h
    simp [candidates_nil, h]
  | cons l rest ih =>
    intro acc pids h
    unfold resolveLoop at h
    by_cases hl : l = ""
    · subst hl
      rw [if_pos rfl] at h
      rw [candidates_cons_empty]
      exact ih acc pids h
    · rw [if_neg hl] at h
      cases ha : Atoi l with
      | none => rw [ha] at h; cases h
      | some pid =>
        rw [ha] at h
        dsimp only at h
        by_cases hp : pid = myPid
        · rw [if_pos hp] at h
          subst hp
          rw [candidates_cons_own pid l rest hl ha]
          exact ih acc pids h
        · rw [if_neg hp] at h
          rw [candidates_cons_other myPid pid l rest hl ha hp, ih _ pids h]
          simp

/-- The loop of `resolvePids` succeeds when every non-empty line parses. -/
theorem resolveLoop_ok (myPid : Int) (lines : List String) :
    ∀ (acc : List Int), (∀ l ∈ lines, l ≠ "" → ∃ n, Atoi l = some n) →
      resolveLoop myPid lines acc = Except.ok (acc ++ candidates myPid lines) := by
  induction lines with
  | nil =>
    intro acc _
    simp [resolveLoop, candidates_nil]
  | cons l rest ih =>
    intro acc hall
    have hrest : ∀ l' ∈ rest, l' ≠ "" → ∃ n, Atoi l' = some n :=
      fun l' hl' => hall l' (List.mem_cons_of_mem l hl')
    unfold resolveLoop
    by_cases hl : l = ""
    · subst hl
      rw [if_pos rfl, candidates_cons_empty]
      exact ih acc hrest
    · rw [if_neg hl]
      obtain ⟨pid, ha⟩ := hall l (List.mem_cons_self l rest) hl
      rw [ha]
      dsimp only
      by_cases hp : pid = myPid
      · rw [if_pos hp]
        subst hp
        rw [candidates_cons_own pid l rest hl ha]
        exact ih acc hrest
      · rw [if_neg hp, candidates_cons_other myPid pid l rest hl ha hp, ih _ hrest]
        simp

/-- A successful `resolvePids` returns the candidates of the contract. -/
theorem resolvePids_ok_inv (env : Env) (pids : List Int)
    (h : (resolvePids env).2 = Except.ok pids) :
    pids = candidates env.Getpid (Split env.pgrepOutput) := by
  unfold resolvePids at h
  split at h
  · simpa using resolveLoop_ok_inv env.Getpid (Split env.pgrepOutput) [] pids h
  · cases h
  · simpa using resolveLoop_ok_inv env.Getpid (Split env.pgrepOutput) [] pids h

/-- Unless the discovery facility failed with something else than a non-zero
exit, `resolvePids` succeeds when every non-empty line parses. -/
theorem resolvePids_ok (env : Env) (herr : ¬ pgrepFailed env)
    (hall : ∀ l ∈ Split env.pgrepOutput, l ≠ "" → ∃ n, Atoi l = some n) :
    (resolvePids env).2 = Except.ok (candidates env.Getpid (Split env.pgrepOutput)) := by
  unfold resolvePids
  split
  · simpa using resolveLoop_ok env.Getpid (Split env.pgrepOutput) [] hall
  · rename_i e hne he
    exact absurd ⟨e, he, fun status hs => hne status hs⟩ herr
  · simpa using resolveLoop_ok env.Getpid (Split env.pgrepOutput) [] hall

theorem own_not_mem_candidates (myPid : Int) (lines : List String) :
    myPid ∉ candidates myPid lines := by
  simp [candidates]

theorem candidates_of_own (myPid : Int) (lines : List String)
    (h : ∀ l ∈ lines, l ≠ "" → Atoi l = some myPid) : candidates myPid lines = [] := by
  induction lines with
  | nil => rfl
  | cons l rest ih =>
    have hrest : ∀ l' ∈ rest, l' ≠ "" → Atoi l' = some myPid :=
      fun l' hl' => h l' (List.mem_cons_of_mem l hl')
    by_cases hl : l = ""
    · subst hl
      rw [candidates_cons_empty]
      exact ih hrest
    · rw [candidates_cons_own myPid l rest hl (h l (List.mem_cons_self l rest) hl)]
      exact ih hrest

/-- The candidates of lines that hold, between lines of the own pid, one line
of another pid `q`. -/
theorem candidates_one_other (myPid q : Int) (lines bef aft : List String) (line : String)
    (hsplit : lines.filter (fun l => decide (l ≠ "")) = bef ++ line :: aft)
    (hown : ∀ l ∈ bef ++ aft, Atoi l = some myPid)
    (hq : Atoi line = some q) (hne : q ≠ myPid) :
    candidates myPid lines = [q] := by
  have hb : ((bef.filterMap Atoi).filter (fun pid => decide (pid ≠ myPid))) = [] := by
    rw [List.filter_eq_nil_iff]
    intro a ha
    obtain ⟨l, hl, hla⟩ := List.mem_filterMap.1 ha
    have := hown l (List.mem_append_left aft hl)
    rw [this] at hla
    injection hla with hla
    simp [← hla]
  have ha : ((aft.filterMap Atoi).filter (fun pid => decide (pid ≠ myPid))) = [] := by
    rw [List.filter_eq_nil_iff]
    intro a ha
    obtain ⟨l, hl, hla⟩ := List.mem_filterMap.1 ha
    have := hown l (List.mem_append_right bef hl)
    rw [this] at hla
    injection hla with hla
    simp [← hla]
  unfold candidates
  rw [hsplit, List.filterMap_append, List.filter_append, hb, List.filterMap_cons, hq]
  dsimp only
  rw [List.filter_cons, ha, if_pos (by simpa using hne)]
  rfl

/-! ## The message of the multiple-processes error -/

theorem multipleLoop_go (ps : List Int) :
    ∀ (acc errStr : String), multipleLoop ps (errStr ++ acc) "\n" =
      errStr ++ String.intercalate.go acc "\n" (ps.map Sprintf_d) := by
  induction ps with
  | nil =>
    intro acc errStr
    simp [multipleLoop, String.intercalate.go]
  | cons p ps ih =>
    intro acc errStr
    simp only [multipleLoop, List.map_cons, String.intercalate.go]
    rw [String.append_assoc, ← String.append_assoc acc, ih]

/-- The loop that builds the multiple-processes message appends to `errStr`
the decimal renderings of the pids joined by newlines. -/
theorem multipleLoop_eq (pids : List Int) (errStr : String) :
    multipleLoop pids errStr "" =
      errStr ++ String.intercalate "\n" (pids.map Sprintf_d) := by
  cases pids with
  | nil => simp [multipleLoop, String.intercalate]
  | cons p ps =>
    simp only [multipleLoop, List.map_cons, String.intercalate, String.empty_append]
    exact multipleLoop_go ps (Sprintf_d p) errStr

/-! ## Claims C3 to C8: the mapping, own-pid exclusion and the error paths -/

/-- C3. For every resolved pid `p`, `ProcessSignal` delivers exactly the
signal of the fixed mapping: `CommandStop` calls `kill(p, SIGKILL)`,
`CommandQuit` calls `kill(p, SIGINT)`, `CommandReopen` calls `kill(p, SIGUSR1)`
and `CommandReload` calls `kill(p, SIGHUP)`, each returning what `kill`
returns; the four signals are pairwise distinct, two recognised commands that
deliver the same signal are equal, and the signals delivered by the recognised
commands are exactly SIGKILL, SIGINT, SIGUSR1 and SIGHUP. -/
theorem ProcessSignal_signal_mapping (env : Env) (pidStr : String) (p : Int)
    (h : Resolved env pidStr p) :
    (ProcessSignal env CommandStop pidStr =
      ⟨(if pidStr = "" then [Call.pgrep] else []) ++ [Call.kill p Signal.SIGKILL],
        env.kill p Signal.SIGKILL⟩ ∧
     ProcessSignal env CommandQuit pidStr =
      ⟨(if pidStr = "" then [Call.pgrep] else []) ++ [Call.kill p Signal.SIGINT],
        env.kill p Signal.SIGINT⟩ ∧
     ProcessSignal env CommandReopen pidStr =
      ⟨(if pidStr = "" then [Call.pgrep] else []) ++ [Call.kill p Signal.SIGUSR1],
        env.kill p Signal.SIGUSR1⟩ ∧
     ProcessSignal env CommandReload pidStr =
      ⟨(if pidStr = "" then [Call.pgrep] else []) ++ [Call.kill p Signal.SIGHUP],
        env.kill p Signal.SIGHUP⟩) ∧
    [Signal.SIGKILL, Signal.SIGINT, Signal.SIGUSR1, Signal.SIGHUP].Nodup ∧
    (∀ c₁ ∈ recognised, ∀ c₂ ∈ recognised, ∀ sig,
      Call.kill p sig ∈ (ProcessSignal env c₁ pidStr).calls →
      Call.kill p sig ∈ (ProcessSignal env c₂ pidStr).calls → c₁ = c₂) ∧
    (∀ sig, (∃ c ∈ recognised, Call.kill p sig ∈ (ProcessSignal env c pidStr).calls) ↔
      sig ∈ [Signal.SIGKILL, Signal.SIGINT, Signal.SIGUSR1, Signal.SIGHUP]) := by
  have hS := ProcessSignal_resolved env CommandStop pidStr p h
  have hQ := ProcessSignal_resolved env CommandQuit pidStr p h
  have hO := ProcessSignal_resolved env CommandReopen pidStr p h
  have hL := ProcessSignal_resolved env CommandReload pidStr p h
  rw [dispatch_Stop] at hS
  rw [dispatch_Quit] at hQ
  rw [dispatch_Reopen] at hO
  rw [dispatch_Reload] at hL
  have hmem : ∀ (sig sig' : Signal),
      Call.kill p sig ∈ (if pidStr = "" then [Call.pgrep] else []) ++ [Call.kill p sig'] ↔
        sig = sig' := by
    intro sig sig'
    split_ifs <;> simp
  refine ⟨⟨hS, hQ, hO, hL⟩, by decide, ?_, ?_⟩
  · intro c₁ h₁ c₂ h₂ sig k₁ k₂
    rcases (mem_recognised c₁).1 h₁ with e₁ | e₁ | e₁ | e₁ <;>
      rcases (mem_recognised c₂).1 h₂ with e₂ | e₂ | e₂ | e₂ <;>
      subst e₁ <;> subst e₂ <;> first
        | rfl
        | (exfalso
           simp only [hS, hQ, hO, hL, hmem] at k₁ k₂
           rw [k₁] at k₂
           revert k₂
           decide)
  · intro sig
    constructor
    · rintro ⟨c, hc, hk⟩
      rcases (mem_recognised c).1 hc with e | e | e | e <;> subst e <;>
        simp only [hS, hQ, hO, hL, hmem] at hk <;> subst hk <;> simp
    · intro hsig
      simp only [List.mem_cons, List.mem_singleton, List.mem_nil_iff, or_false] at hsig
      rcases hsig with e | e | e | e <;> subst e
      · exact ⟨CommandStop, by simp [recognised], by rw [hS]; exact (hmem _ _).2 rfl⟩
      · exact ⟨CommandQuit, by simp [recognised], by rw [hQ]; exact (hmem _ _).2 rfl⟩
      · exact ⟨CommandReopen, by simp [recognised], by rw [hO]; exact (hmem _ _).2 rfl⟩
      · exact ⟨CommandReload, by simp [recognised], by rw [hL]; exact (hmem _ _).2 rfl⟩

/-- C3, at a concrete input: the pid 4321 given explicitly. -/
theorem ProcessSignal_signal_mapping_witness :
    ProcessSignal (exampleEnv "" none 1) CommandStop "4321" =
        ⟨[Call.kill 4321 Signal.SIGKILL], none⟩ ∧
    ProcessSignal (exampleEnv "" none 1) CommandQuit "4321" =
        ⟨[Call.kill 4321 Signal.SIGINT], none⟩ ∧
    ProcessSignal (exampleEnv "" none 1) CommandReopen "4321" =
        ⟨[Call.kill 4321 Signal.SIGUSR1], none⟩ ∧
    ProcessSignal (exampleEnv "" none 1) CommandReload "4321" =
        ⟨[Call.kill 4321 Signal.SIGHUP], none⟩ :=
  (ProcessSignal_signal_mapping (exampleEnv "" none 1) "4321" 4321
    (Or.inl ⟨by decide, by decide⟩)).1

/-- C4. The list `resolvePids` returns on success does not contain the own
pid; and for an empty `pidStr`, when the discovery facility did not fail with
an error other than a non-zero exit and the non-empty lines of its output are
lines holding the caller's pid and exactly one other line, holding an id `q`,
resolution succeeds with `q` and `ProcessSignal`, for a recognised command,
delivers the signal to `q`. -/
theorem resolvePids_excludes_own_pid (env : Env) :
    (∀ pids, (resolvePids env).2 = Except.ok pids → env.Getpid ∉ pids) ∧
    (∀ (bef aft : List String) (line : String) (q : Int),
      ¬ pgrepFailed env →
      (Split env.pgrepOutput).filter (fun l => decide (l ≠ "")) = bef ++ line :: aft →
      (∀ l ∈ bef ++ aft, Atoi l = some env.Getpid) →
      Atoi line = some q → q ≠ env.Getpid →
      (resolvePids env).2 = Except.ok [q] ∧
      ∀ command ∈ recognised, ∃ sig,
        ProcessSignal env command "" =
          ⟨[Call.pgrep, Call.kill q sig], env.kill q sig⟩) := by
  constructor
  · intro pids h
    rw [resolvePids_ok_inv env pids h]
    exact own_not_mem_candidates env.Getpid _
  · intro bef aft line q herr hsplit hown hq hne
    have hall : ∀ l ∈ Split env.pgrepOutput, l ≠ "" → ∃ n, Atoi l = some n := by
      intro l hl hl0
      have hm : l ∈ (Split env.pgrepOutput).filter (fun l => decide (l ≠ "")) :=
        List.mem_filter.2 ⟨hl, by simpa using hl0⟩
      rw [hsplit] at hm
      rcases List.mem_append.1 hm with hb | hc
      · exact ⟨_, hown l (List.mem_append_left aft hb)⟩
      · rcases List.mem_cons.1 hc with hd | hd
        · exact ⟨q, hd ▸ hq⟩
        · exact ⟨_, hown l (List.mem_append_right bef hd)⟩
    have hr : (resolvePids env).2 = Except.ok [q] := by
      rw [resolvePids_ok env herr hall,
        candidates_one_other env.Getpid q _ bef aft line hsplit hown hq hne]
    refine ⟨hr, ?_⟩
    intro command hc
    obtain ⟨sig, hs⟩ := dispatch_recognised env command q [Call.pgrep] hc
    exact ⟨sig, by rw [ProcessSignal_empty_single env command q hr, hs]; rfl⟩

/-- C4, the scenario of the spec: discovery returns "1234\n5678\n" and the
caller's pid is 5678; the resolved id is 1234, and the signal goes to it. -/
theorem resolvePids_excludes_own_pid_witness :
    (resolvePids (exampleEnv "1234\n5678\n" none 5678)).2 = Except.ok [1234] ∧
    ∀ command ∈ recognised, ∃ sig,
      ProcessSignal (exampleEnv "1234\n5678\n" none 5678) command "" =
        ⟨[Call.pgrep, Call.kill 1234 sig],
          (exampleEnv "1234\n5678\n" none 5678).kill 1234 sig⟩ :=
  (resolvePids_excludes_own_pid (exampleEnv "1234\n5678\n" none 5678)).2
    [] ["5678"] "1234" 1234
    (by rintro ⟨e, he, -⟩; cases he) (by decide) (by decide) (by decide) (by decide)

/-- C5. For an empty `pidStr` and every command, whenever `resolvePids`
returns two or more candidates, `ProcessSignal` calls `pgrep` only (no signal
is sent) and fails with the error whose message is
"multiple gnatsd processes running:\n" followed by the decimal renderings of
all candidate ids joined by single "\n", with no trailing newline; the
candidates are the parsed non-empty lines of the discovery output other than
the own pid, in the order of the output. -/
theorem ProcessSignal_multiple_processes (env : Env) (command : Command)
    (pids : List Int) (h : (resolvePids env).2 = Except.ok pids)
    (hlen : 2 ≤ pids.length) :
    ProcessSignal env command "" =
      ⟨[Call.pgrep],
        some (errorsNew ("multiple gnatsd processes running:\n" ++
          String.intercalate "\n" (pids.map Sprintf_d)))⟩ ∧
    pids = candidates env.Getpid (Split env.pgrepOutput) := by
  refine ⟨?_, resolvePids_ok_inv env pids h⟩
  rw [ProcessSignal_empty_many env command pids h hlen, multipleLoop_eq]

/-- C5, at a concrete input: three lines, none of them the own pid, with an
unrecognised command. -/
theorem ProcessSignal_multiple_processes_witness :
    ProcessSignal (exampleEnv "5678\n1234\n99\n" none 1) "bogus" "" =
      ⟨[Call.pgrep],
        some (errorsNew "multiple gnatsd processes running:\n5678\n1234\n99")⟩ :=
  (ProcessSignal_multiple_processes (exampleEnv "5678\n1234\n99\n" none 1) "bogus"
    [5678, 1234, 99] (by rfl) (by decide)).1

/-- C6. For an empty `pidStr` and every command, whenever discovery yields
zero candidates after own-pid exclusion, `ProcessSignal` calls `pgrep` only
(`kill` is not invoked) and fails with the error "no gnatsd processes running";
in particular so after a non-zero-exit discovery failure with empty output,
after a successful run with empty output, and after an output whose non-empty
lines all hold the caller's own pid. -/
theorem ProcessSignal_not_running (env : Env) (command : Command) :
    ((resolvePids env).2 = Except.ok [] →
      ProcessSignal env command "" =
        ⟨[Call.pgrep], some (errorsNew "no gnatsd processes running")⟩) ∧
    ((∃ status, env.pgrepErr = some (GoError.ExitError status)) → env.pgrepOutput = "" →
      ProcessSignal env command "" =
        ⟨[Call.pgrep], some (errorsNew "no gnatsd processes running")⟩) ∧
    (env.pgrepErr = none → env.pgrepOutput = "" →
      ProcessSignal env command "" =
        ⟨[Call.pgrep], some (errorsNew "no gnatsd processes running")⟩) ∧
    (¬ pgrepFailed env →
      (∀ l ∈ Split env.pgrepOutput, l ≠ "" → Atoi l = some env.Getpid) →
      ProcessSignal env command "" =
        ⟨[Call.pgrep], some (errorsNew "no gnatsd processes running")⟩) := by
  have own : ¬ pgrepFailed env →
      (∀ l ∈ Split env.pgrepOutput, l ≠ "" → Atoi l = some env.Getpid) →
      (resolvePids env).2 = Except.ok [] := by
    intro herr hown
    rw [resolvePids_ok env herr (fun l hl hl0 => ⟨_, hown l hl hl0⟩),
      candidates_of_own env.Getpid _ hown]
  have empty : env.pgrepOutput = "" →
      ∀ l ∈ Split env.pgrepOutput, l ≠ "" → Atoi l = some env.Getpid := by
    intro ho l hl hl0
    rw [ho] at hl
    have : l = "" := by simpa [Split, splitNewline] using hl
    exact absurd this hl0
  refine ⟨ProcessSignal_empty_nil env command, ?_, ?_, ?_⟩
  · rintro ⟨status, hs⟩ ho
    refine ProcessSignal_empty_nil env command (own ?_ (empty ho))
    rintro ⟨e, he, hne⟩
    rw [hs] at he
    injection he with he
    exact hne status he.symm
  · intro hn ho
    refine ProcessSignal_empty_nil env command (own ?_ (empty ho))
    rintro ⟨e, he, -⟩
    rw [hn] at he
    cases he
  · intro herr hown
    exact ProcessSignal_empty_nil env command (own herr hown)

/-- C6, the scenario of the spec: discovery returns "" with a non-zero
completion status. -/
theorem ProcessSignal_not_running_witness :
    ProcessSignal (exampleEnv "" (some (GoError.ExitError 1)) 77) CommandStop "" =
      ⟨[Call.pgrep], some (errorsNew "no gnatsd processes running")⟩ :=
  (ProcessSignal_not_running (exampleEnv "" (some (GoError.ExitError 1)) 77)
    CommandStop).2.1 ⟨1, rfl⟩ rfl

/-- C7. For every non-empty `pidStr` that `strconv.Atoi` does not parse and
every command value, `ProcessSignal` makes no call at all (neither `pgrep` nor
`kill`) and fails with the error whose message is "invalid pid: " followed by
`pidStr` unchanged. -/
theorem ProcessSignal_invalid_pid (env : Env) (command : Command) (pidStr : String)
    (hne : pidStr ≠ "") (h : Atoi pidStr = none) :
    ProcessSignal env command pidStr =
      ⟨[], some (GoError.errorString ("invalid pid: " ++ pidStr))⟩ :=
  ProcessSignal_explicit_none env command pidStr hne h

/-- C7, at concrete inputs: non-numeric text, embedded whitespace, and a
number out of the range of `int`. -/
theorem ProcessSignal_invalid_pid_witness :
    ProcessSignal (exampleEnv "1234\n" none 1) CommandStop "abc" =
      ⟨[], some (GoError.errorString "invalid pid: abc")⟩ ∧
    ProcessSignal (exampleEnv "1234\n" none 1) CommandQuit "12 34" =
      ⟨[], some (GoError.errorString "invalid pid: 12 34")⟩ ∧
    ProcessSignal (exampleEnv "1234\n" none 1) "bogus" "9223372036854775808" =
      ⟨[], some (GoError.errorString "invalid pid: 9223372036854775808")⟩ :=
  ⟨ProcessSignal_invalid_pid (exampleEnv "1234\n" none 1) CommandStop "abc"
      (by decide) (by decide),
   ProcessSignal_invalid_pid (exampleEnv "1234\n" none 1) CommandQuit "12 34"
      (by decide) (by decide),
   ProcessSignal_invalid_pid (exampleEnv "1234\n" none 1) "bogus" "9223372036854775808"
      (by decide) (by decide)⟩

/-- C8. For every command value other than the four recognised ones, and for
every `pidStr`, discovery result and own pid, `ProcessSignal` returns an error
(never success) and never invokes `kill`. -/
theorem ProcessSignal_unknown_command_fails (env : Env) (command : Command)
    (pidStr : String) (hc : command ∉ recognised) :
    (ProcessSignal env command pidStr).err ≠ none ∧
    ∀ p sig, Call.kill p sig ∉ (ProcessSignal env command pidStr).calls := by
  by_cases he : pidStr = ""
  · subst he
    cases hr : (resolvePids env).2 with
    | error e => rw [ProcessSignal_empty_error env command e hr]; simp
    | ok pids =>
      match pids, hr with
      | [], hr => rw [ProcessSignal_empty_nil env command hr]; simp
      | [q], hr =>
        rw [ProcessSignal_empty_single env command q hr,
          dispatch_unknown env command q _ hc]
        simp
      | a :: b :: rest, hr =>
        rw [ProcessSignal_empty_many env command (a :: b :: rest) hr (by simp)]
        simp
  · cases ha : Atoi pidStr with
    | none => rw [ProcessSignal_explicit_none env command pidStr he ha]; simp
    | some q =>
      rw [ProcessSignal_explicit_some env command pidStr q he ha,
        dispatch_unknown env command q _ hc]
      simp

/-- C8, at a concrete input: the command "restart" on the explicit pid 4321. -/
theorem ProcessSignal_unknown_command_fails_witness :
    (ProcessSignal (exampleEnv "" none 1) "restart" "4321").err ≠ none ∧
    ∀ p sig, Call.kill p sig ∉ (ProcessSignal (exampleEnv "" none 1) "restart" "4321").calls :=
  ProcessSignal_unknown_command_fails (exampleEnv "" none 1) "restart" "4321" (by decide)

/-! ## Claims C9 and C10: the place of the command lookup, the sign of the pid -/

/-- What `strconv.Atoi` returns fits the 64-bit `int`. -/
theorem Atoi_range (s : String) (n : Int) (h : Atoi s = some n) :
    -(2 : Int) ^ 63 ≤ n ∧ n < (2 : Int) ^ 63 := by
  unfold Atoi at h
  split at h
  · cases h
  · dsimp only at h
    split at h
    · cases h
    · rename_i c cs hdata _ un hun
      by_cases hc : c = '-'
      · simp only [hc, intSize, decide_True, Bool.not_true, Bool.false_and, Bool.true_and,
          decide_eq_true_eq, if_true, if_false, Bool.false_eq_true] at h
        split_ifs at h with h1
        injection h with h
        norm_num at h1 ⊢
        omega
      · simp only [hc, intSize, decide_False, Bool.not_false, Bool.false_and, Bool.true_and,
          decide_eq_true_eq, if_true, if_false, Bool.false_eq_true] at h
        split_ifs at h with h1
        injection h with h
        norm_num at h1 ⊢
        omega

/-- Every candidate is the value of a line of the discovery output. -/
theorem mem_candidates (myPid p : Int) (lines : List String)
    (h : p ∈ candidates myPid lines) :
    p ≠ myPid ∧ ∃ line ∈ lines, line ≠ "" ∧ Atoi line = some p := by
  unfold candidates at h
  obtain ⟨hm, hp⟩ := List.mem_filter.1 h
  obtain ⟨line, hl, ha⟩ := List.mem_filterMap.1 hm
  obtain ⟨hl1, hl2⟩ := List.mem_filter.1 hl
  exact ⟨by simpa using hp, line, hl1, by simpa using hl2, ha⟩

/-- When no pid is resolved, the outcome of `ProcessSignal` is the resolution
error, whatever the command is. -/
theorem ProcessSignal_unresolved (env : Env) (command command' : Command)
    (pidStr : String) (h : ∀ p, ¬ Resolved env pidStr p) :
    ProcessSignal env command pidStr = ProcessSignal env command' pidStr := by
  by_cases he : pidStr = ""
  · subst he
    cases hr : (resolvePids env).2 with
    | error e =>
      rw [ProcessSignal_empty_error env command e hr,
        ProcessSignal_empty_error env command' e hr]
    | ok pids =>
      match pids, hr with
      | [], hr =>
        rw [ProcessSignal_empty_nil env command hr, ProcessSignal_empty_nil env command' hr]
      | [q], hr => exact absurd (Or.inr ⟨rfl, hr⟩) (h q)
      | a :: b :: rest, hr =>
        rw [ProcessSignal_empty_many env command (a :: b :: rest) hr (by simp),
          ProcessSignal_empty_many env command' (a :: b :: rest) hr (by simp)]
  · cases ha : Atoi pidStr with
    | none =>
      rw [ProcessSignal_explicit_none env command pidStr he ha,
        ProcessSignal_explicit_none env command' pidStr he ha]
    | some q => exact absurd (Or.inl ⟨he, ha⟩) (h q)

/-- C9, as the code has it. The command lookup is the last step of
`ProcessSignal`: for an unrecognised command, once a pid is resolved (a
non-empty `pidStr` that `Atoi` parses, or an empty one with exactly one
candidate) `ProcessSignal` sends no signal and fails with the error whose
message is "unknown signal " followed by the quoted command, after the call of
`pgrep` when `pidStr` is empty; when no pid is resolved the outcome is the
resolution error, the same as for any other command. -/
theorem ProcessSignal_unknown_command_after_resolution (env : Env) (command : Command)
    (pidStr : String) (hc : command ∉ recognised) :
    (∀ p, Resolved env pidStr p →
      ProcessSignal env command pidStr =
        ⟨if pidStr = "" then [Call.pgrep] else [],
          some (GoError.errorString ("unknown signal " ++ env.Quote command))⟩) ∧
    ((∀ p, ¬ Resolved env pidStr p) →
      ∀ command', ProcessSignal env command pidStr = ProcessSignal env command' pidStr) := by
  constructor
  · intro p hp
    rw [ProcessSignal_resolved env command pidStr p hp, dispatch_unknown env command p _ hc]
  · intro h command'
    exact ProcessSignal_unresolved env command command' pidStr h

/-- C9 as amended, at a concrete input: the command "bogus" on the explicit pid
4321. -/
theorem ProcessSignal_unknown_command_after_resolution_witness :
    ProcessSignal (exampleEnv "" none 1) "bogus" "4321" =
      ⟨[], some (GoError.errorString "unknown signal \"bogus\"")⟩ :=
  (ProcessSignal_unknown_command_after_resolution (exampleEnv "" none 1) "bogus" "4321"
    (by decide)).1 4321 (Or.inl ⟨by decide, by decide⟩)

/-- C9 fails as stated: for the unrecognised command "bogus" and the `pidStr`
"abc" the error is the invalid-pid error, not the unknown-signal error; and
with an empty `pidStr` and no running process the discovery facility is
invoked and the error is the not-running error. -/
theorem ProcessSignal_unknown_command_not_first :
    "bogus" ∉ recognised ∧
    (ProcessSignal (exampleEnv "" none 1) "bogus" "abc").err =
      some (GoError.errorString "invalid pid: abc") ∧
    (ProcessSignal (exampleEnv "" none 1) "bogus" "abc").err ≠
      some (GoError.errorString
        ("unknown signal " ++ (exampleEnv "" none 1).Quote "bogus")) ∧
    (ProcessSignal (exampleEnv "" (some (GoError.ExitError 1)) 1) "bogus" "").calls =
      [Call.pgrep] ∧
    (ProcessSignal (exampleEnv "" (some (GoError.ExitError 1)) 1) "bogus" "").err =
      some (GoError.errorString "no gnatsd processes running") := by
  decide

/-- C10, as the code has it. `ProcessSignal` makes no positivity check: if
`kill` is invoked with pid `p`, then `p` is the integer `Atoi` parses from a
non-empty `pidStr`, or, for an empty `pidStr`, the single candidate of
`resolvePids`, which is the value of a non-empty line of the discovery output
and is not the caller's own pid; in both cases `p` is within the range of a
64-bit `int`. -/
theorem ProcessSignal_kill_pid_is_resolved (env : Env) (command : Command)
    (pidStr : String) (p : Int) (sig : Signal)
    (h : Call.kill p sig ∈ (ProcessSignal env command pidStr).calls) :
    ((pidStr ≠ "" ∧ Atoi pidStr = some p) ∨
      (pidStr = "" ∧ (resolvePids env).2 = Except.ok [p] ∧ p ≠ env.Getpid ∧
        ∃ line ∈ Split env.pgrepOutput, line ≠ "" ∧ Atoi line = some p)) ∧
    -(2 : Int) ^ 63 ≤ p ∧ p < (2 : Int) ^ 63 := by
  by_cases he : pidStr = ""
  · subst he
    have hr := kill_mem_empty env command p sig h
    have hm : p ∈ candidates env.Getpid (Split env.pgrepOutput) := by
      rw [← resolvePids_ok_inv env [p] hr]
      exact List.mem_singleton_self p
    obtain ⟨hp, line, hl, hl0, ha⟩ := mem_candidates env.Getpid p _ hm
    exact ⟨Or.inr ⟨rfl, hr, hp, line, hl, hl0, ha⟩, Atoi_range line p ha⟩
  · have ha := kill_mem_explicit env command pidStr p sig he h
    exact ⟨Or.inl ⟨he, ha⟩, Atoi_range pidStr p ha⟩

/-- C10 as amended, at a concrete input: the explicit `pidStr` "-1". -/
theorem ProcessSignal_kill_pid_is_resolved_witness :
    Call.kill (-1) Signal.SIGKILL ∈
      (ProcessSignal (exampleEnv "" none 1) CommandStop "-1").calls ∧
    Atoi "-1" = some (-1) :=
  ⟨by decide,
   ((ProcessSignal_kill_pid_is_resolved (exampleEnv "" none 1) CommandStop "-1" (-1)
      Signal.SIGKILL (by decide)).1.resolve_right (by simp)).2⟩

/-- C10 fails as stated: `kill` is invoked with a pid that is not positive for
the explicit `pidStr` "-1" and "0", and for the discovery line "-1". -/
theorem ProcessSignal_kill_nonpositive_pid :
    (ProcessSignal (exampleEnv "" none 1) CommandStop "-1").calls =
      [Call.kill (-1) Signal.SIGKILL] ∧
    (ProcessSignal (exampleEnv "" none 1) CommandQuit "0").calls =
      [Call.kill 0 Signal.SIGINT] ∧
    (ProcessSignal (exampleEnv "-1\n" none 1) CommandStop "").calls =
      [Call.pgrep, Call.kill (-1) Signal.SIGKILL] ∧
    ¬ ((0 : Int) < -1) ∧ ¬ ((0 : Int) < 0) := by
  decide

/-! ## Claims C11 to C13: failure of the resolution, non-zero exits, delivery -/

/-- The loop of `resolvePids` fails, with the unable-to-resolve error, as soon
as one non-empty line does not parse, wherever the line is. -/
theorem resolveLoop_error (myPid : Int) (lines : List String) :
    ∀ (acc : List Int), (∃ l ∈ lines, l ≠ "" ∧ Atoi l = none) →
      resolveLoop myPid lines acc =
        Except.error (errorsNew "unable to resolve pid, try providing one") := by
  induction lines with
  | nil =>
    rintro acc ⟨l, hl, -⟩
    cases hl
  | cons l rest ih =>
    rintro acc ⟨bad, hbad, hne, hnone⟩
    unfold resolveLoop
    by_cases hl : l = ""
    · subst hl
      rw [if_pos rfl]
      rcases List.mem_cons.1 hbad with hb | hb
      · exact absurd hb hne
      · exact ih acc ⟨bad, hb, hne, hnone⟩
    · rw [if_neg hl]
      cases ha : Atoi l with
      | none => rfl
      | some pid =>
        have hrest : ∃ l' ∈ rest, l' ≠ "" ∧ Atoi l' = none := by
          rcases List.mem_cons.1 hbad with hb | hb
          · rw [hb, ha] at hnone
            cases hnone
          · exact ⟨bad, hb, hne, hnone⟩
        dsimp only
        split_ifs
        · exact ih acc hrest
        · exact ih _ hrest

/-- Either every non-empty line parses, or some non-empty line does not. -/
theorem all_parse_or_bad (lines : List String) :
    (∀ l ∈ lines, l ≠ "" → ∃ n, Atoi l = some n) ∨
      ∃ l ∈ lines, l ≠ "" ∧ Atoi l = none := by
  by_cases h : ∃ l ∈ lines, l ≠ "" ∧ Atoi l = none
  · exact Or.inr h
  · left
    intro l hl hne
    cases ha : Atoi l with
    | none => exact absurd ⟨l, hl, hne, ha⟩ h
    | some n => exact ⟨n, rfl⟩

/-- The only error of `resolvePids` is the unable-to-resolve error, and it
occurs exactly when discovery failed other than by a non-zero exit or a
non-empty line does not parse. -/
theorem resolvePids_error_iff (env : Env) (e : GoError) :
    (resolvePids env).2 = Except.error e ↔
      e = errorsNew "unable to resolve pid, try providing one" ∧
        (pgrepFailed env ∨ ∃ l ∈ Split env.pgrepOutput, l ≠ "" ∧ Atoi l = none) := by
  by_cases hf : pgrepFailed env
  · have hr : (resolvePids env).2 =
        Except.error (errorsNew "unable to resolve pid, try providing one") := by
      obtain ⟨e', he', hne⟩ := hf
      unfold resolvePids
      rw [he']
      cases e' with
      | ExitError status => exact absurd rfl (hne status)
      | errorString msg => rfl
      | ExecError name => rfl
      | Errno code => rfl
    rw [hr]
    constructor
    · intro h
      injection h with h
      exact ⟨h.symm, Or.inl hf⟩
    · rintro ⟨h, -⟩
      rw [h]
  · have hr : (resolvePids env).2 = resolveLoop env.Getpid (Split env.pgrepOutput) [] := by
      unfold resolvePids
      split
      · rfl
      · rename_i e' hne he'
        exact absurd ⟨e', he', fun status hs => hne status hs⟩ hf
      · rfl
    rcases all_parse_or_bad (Split env.pgrepOutput) with hall | hbad
    · rw [hr, resolveLoop_ok env.Getpid _ [] hall]
      constructor
      · intro h
        cases h
      · rintro ⟨-, h | ⟨l, hl, hne, hnone⟩⟩
        · exact absurd h hf
        · obtain ⟨n, hn⟩ := hall l hl hne
          rw [hn] at hnone
          cases hnone
    · rw [hr, resolveLoop_error env.Getpid _ [] hbad]
      constructor
      · intro h
        injection h with h
        exact ⟨h.symm, Or.inr hbad⟩
      · rintro ⟨h, -⟩
        rw [h]

/-- C11. `resolvePids` fails if and only if the discovery facility failed with
an error that is not a non-zero-exit error, or some non-empty line of the
output does not parse as an integer; the error is then the one with message
"unable to resolve pid, try providing one", no candidate list is returned, and
`ProcessSignal` with an empty `pidStr` returns that same error after its call
of `pgrep`, without invoking `kill`. -/
theorem resolvePids_fails_iff (env : Env) (command : Command) :
    ((∃ e, (resolvePids env).2 = Except.error e) ↔
      (pgrepFailed env ∨ ∃ l ∈ Split env.pgrepOutput, l ≠ "" ∧ Atoi l = none)) ∧
    (∀ e, (resolvePids env).2 = Except.error e →
      e = errorsNew "unable to resolve pid, try providing one" ∧
      (∀ pids, (resolvePids env).2 ≠ Except.ok pids) ∧
      ProcessSignal env command "" = ⟨[Call.pgrep], some e⟩) := by
  constructor
  · constructor
    · rintro ⟨e, he⟩
      exact ((resolvePids_error_iff env e).1 he).2
    · intro h
      exact ⟨_, (resolvePids_error_iff env _).2 ⟨rfl, h⟩⟩
  · intro e he
    refine ⟨((resolvePids_error_iff env e).1 he).1, ?_, ProcessSignal_empty_error env command e he⟩
    intro pids hp
    rw [he] at hp
    cases hp

/-- C11, at concrete inputs: a malformed line after a valid one, a malformed
line that starts like the own pid, and a discovery tool that could not be
started. -/
theorem resolvePids_fails_iff_witness :
    ProcessSignal (exampleEnv "1234\nabc\n" none 1) CommandStop "" =
      ⟨[Call.pgrep], some (errorsNew "unable to resolve pid, try providing one")⟩ ∧
    ProcessSignal (exampleEnv "5678x\n" none 5678) CommandStop "" =
      ⟨[Call.pgrep], some (errorsNew "unable to resolve pid, try providing one")⟩ ∧
    ProcessSignal (exampleEnv "" (some (GoError.ExecError "pgrep")) 1) CommandStop "" =
      ⟨[Call.pgrep], some (errorsNew "unable to resolve pid, try providing one")⟩ :=
  ⟨((resolvePids_fails_iff (exampleEnv "1234\nabc\n" none 1) CommandStop).2 _ (by rfl)).2.2,
   ((resolvePids_fails_iff (exampleEnv "5678x\n" none 5678) CommandStop).2 _ (by rfl)).2.2,
   ((resolvePids_fails_iff (exampleEnv "" (some (GoError.ExecError "pgrep")) 1)
      CommandStop).2 _ (by rfl)).2.2⟩

/-- Every parsed non-empty line other than the own pid is a candidate. -/
theorem mem_candidates_of (myPid n : Int) (lines : List String) (l : String)
    (hl : l ∈ lines) (hne : l ≠ "") (ha : Atoi l = some n) (hn : n ≠ myPid) :
    n ∈ candidates myPid lines := by
  unfold candidates
  refine List.mem_filter.2 ⟨List.mem_filterMap.2 ⟨l, ?_, ha⟩, by simpa using hn⟩
  exact List.mem_filter.2 ⟨hl, by simpa using hne⟩

/-- A successful `resolvePids` has parsed every non-empty line. -/
theorem resolvePids_ok_all_parse (env : Env) (pids : List Int)
    (h : (resolvePids env).2 = Except.ok pids) :
    ¬ pgrepFailed env ∧ ∀ l ∈ Split env.pgrepOutput, l ≠ "" → ∃ n, Atoi l = some n := by
  have hno : ¬ (pgrepFailed env ∨ ∃ l ∈ Split env.pgrepOutput, l ≠ "" ∧ Atoi l = none) := by
    intro hbad
    have := (resolvePids_error_iff env _).2 ⟨rfl, hbad⟩
    rw [h] at this
    cases this
  refine ⟨fun hf => hno (Or.inl hf), ?_⟩
  rcases all_parse_or_bad (Split env.pgrepOutput) with hall | hbad
  · exact hall
  · exact absurd (Or.inr hbad) hno

/-- After a non-zero exit of the discovery subprocess, `resolvePids` returns
zero candidates and no error exactly when every non-empty line of the output
holds the caller's own pid, in particular when the output is empty, and then
`ProcessSignal` with an empty `pidStr` fails with the not-running error. -/
theorem resolvePids_exit_error_parses_output (env : Env) (command : Command)
    (status : Int) (h : env.pgrepErr = some (GoError.ExitError status)) :
    ((resolvePids env).2 = Except.ok [] ↔
      ∀ l ∈ Split env.pgrepOutput, l ≠ "" → Atoi l = some env.Getpid) ∧
    (env.pgrepOutput = "" → (resolvePids env).2 = Except.ok []) ∧
    ((resolvePids env).2 = Except.ok [] →
      ProcessSignal env command "" =
        ⟨[Call.pgrep], some (errorsNew "no gnatsd processes running")⟩) := by
  have hnf : ¬ pgrepFailed env := by
    rintro ⟨e, he, hne⟩
    rw [h] at he
    injection he with he
    exact hne status he.symm
  have back : (∀ l ∈ Split env.pgrepOutput, l ≠ "" → Atoi l = some env.Getpid) →
      (resolvePids env).2 = Except.ok [] := by
    intro hown
    rw [resolvePids_ok env hnf (fun l hl hl0 => ⟨_, hown l hl hl0⟩),
      candidates_of_own env.Getpid _ hown]
  refine ⟨⟨?_, back⟩, ?_, ProcessSignal_empty_nil env command⟩
  · intro hr l hl hne
    obtain ⟨n, hn⟩ := (resolvePids_ok_all_parse env [] hr).2 l hl hne
    by_cases hown : n = env.Getpid
    · rw [hn, hown]
    · have hm := mem_candidates_of env.Getpid n _ l hl hne hn hown
      rw [← resolvePids_ok_inv env [] hr] at hm
      cases hm
  · intro ho
    apply back
    intro l hl hl0
    rw [ho] at hl
    have : l = "" := by simpa [Split, splitNewline] using hl
    exact absurd this hl0

/-- C12. The code at the failing input: `pgrep` returns the output "1234\n"
together with a non-zero-exit error, the caller has pid 1 and `pidStr` is
empty. The comment on the `ExitError` case says that a non-zero exit means no
processes found, but the case only leaves the type switch and the output is
parsed: `resolvePids` returns the candidate 1234 and not zero candidates, and
`ProcessSignal` calls `kill(1234, SIGKILL)` and returns no error, not the
not-running error. -/
theorem resolvePids_exit_error_with_output :
    (resolvePids (exampleEnv "1234\n" (some (GoError.ExitError 1)) 1)).2 =
      Except.ok [1234] ∧
    (resolvePids (exampleEnv "1234\n" (some (GoError.ExitError 1)) 1)).2 ≠
      Except.ok [] ∧
    (ProcessSignal (exampleEnv "1234\n" (some (GoError.ExitError 1)) 1) CommandStop "").calls =
      [Call.pgrep, Call.kill 1234 Signal.SIGKILL] ∧
    (ProcessSignal (exampleEnv "1234\n" (some (GoError.ExitError 1)) 1) CommandStop "").err =
      none ∧
    (ProcessSignal (exampleEnv "1234\n" (some (GoError.ExitError 1)) 1) CommandStop "").err ≠
      some (errorsNew "no gnatsd processes running") := by
  refine ⟨rfl, ?_, by decide, by decide, by decide⟩
  intro h
  have h' : (Except.ok [1234] : Except GoError (List Int)) = Except.ok [] := h
  injection h' with h'
  cases h'

/-- C13. For every recognised command, once a pid `p` is resolved,
`ProcessSignal` makes a single call `kill(p, sig)` and returns what that call
returns: it succeeds if and only if the call succeeds, and when the call fails
the error of `ProcessSignal` is the cause returned by `kill`. -/
theorem ProcessSignal_delivery (env : Env) (command : Command) (pidStr : String)
    (p : Int) (hc : command ∈ recognised) (h : Resolved env pidStr p) :
    ∃ sig,
      (ProcessSignal env command pidStr).calls.filter Call.isKill = [Call.kill p sig] ∧
      (ProcessSignal env command pidStr).err = env.kill p sig ∧
      ((ProcessSignal env command pidStr).err = none ↔ env.kill p sig = none) ∧
      ∀ cause, env.kill p sig = some cause →
        (ProcessSignal env command pidStr).err = some cause := by
  obtain ⟨sig, hs⟩ := dispatch_recognised env command p
    (if pidStr = "" then [Call.pgrep] else []) hc
  have hp := ProcessSignal_resolved env command pidStr p h
  rw [hs] at hp
  refine ⟨sig, ?_, ?_, ?_, ?_⟩
  · rw [hp]
    split_ifs <;> simp [Call.isKill]
  · rw [hp]
  · rw [hp]
  · intro cause hk
    rw [hp]
    exact hk

/-- C13, at a concrete input: `kill` fails with the errno 3 on the explicit
pid 4321, and `ProcessSignal` returns that errno. -/
theorem ProcessSignal_delivery_witness :
    (ProcessSignal (noSuchProcessEnv "") CommandReload "4321").err =
      some (GoError.Errno 3) ∧
    ∃ sig,
      (ProcessSignal (noSuchProcessEnv "") CommandReload "4321").calls.filter Call.isKill =
        [Call.kill 4321 sig] ∧
      (ProcessSignal (noSuchProcessEnv "") CommandReload "4321").err =
        (noSuchProcessEnv "").kill 4321 sig :=
  ⟨by decide,
   (ProcessSignal_delivery (noSuchProcessEnv "") CommandReload "4321" 4321 (by decide)
      (Or.inl ⟨by decide, by decide⟩)).imp fun _ hsig => ⟨hsig.1, hsig.2.1⟩⟩

/-! ## The listener -/

theorem handle_exited (s : Server) (st : Listener) (sig : Signal) (code : Int)
    (h : st.exited = some code) : handle s st sig = st := by
  unfold handle
  rw [h]

theorem receiveLoop_exited (s : Server) (sigs : List Signal) :
    ∀ (st : Listener) (code : Int), st.exited = some code → receiveLoop s st sigs = st := by
  induction sigs with
  | nil => intro st code _; rfl
  | cons sig rest ih =>
    intro st code h
    unfold receiveLoop
    rw [handle_exited s st sig code h]
    exact ih st code h

theorem receiveLoop_append (s : Server) (a b : List Signal) :
    ∀ (st : Listener), receiveLoop s st (a ++ b) = receiveLoop s (receiveLoop s st a) b := by
  induction a with
  | nil => intro st; rfl
  | cons sig rest ih =>
    intro st
    simp only [List.cons_append, receiveLoop]
    exact ih _

theorem handle_SIGINT (s : Server) (st : Listener) (h : st.exited = none) :
    handle s st Signal.SIGINT =
      { st with
        trace := st.trace ++ [Event.Debugf "Trapped %q signal" Signal.SIGINT] ++
          [Event.CloseUnixSocket, Event.Noticef "Server Exiting..", Event.Exit 0]
        exited := some 0 } := by
  unfold handle
  rw [h]
  simp

theorem handle_SIGUSR1 (s : Server) (st : Listener) (h : st.exited = none) :
    handle s st Signal.SIGUSR1 =
      { st with
        trace := st.trace ++ [Event.Debugf "Trapped %q signal" Signal.SIGUSR1] ++
          [Event.ReOpenLogFile] } := by
  unfold handle
  rw [h]
  simp [Signal.SIGUSR1, Signal.SIGINT]

theorem handle_SIGHUP_ok (s : Server) (st : Listener) (h : st.exited = none)
    (hr : s.Reload st.reloads = none) :
    handle s st Signal.SIGHUP =
      { st with
        trace := st.trace ++ [Event.Debugf "Trapped %q signal" Signal.SIGHUP] ++
          [Event.Reload]
        reloads := st.reloads + 1 } := by
  unfold handle
  rw [h]
  simp [Signal.SIGHUP, Signal.SIGUSR1, Signal.SIGINT, hr]

theorem handle_SIGHUP_error (s : Server) (st : Listener) (err : GoError)
    (h : st.exited = none) (hr : s.Reload st.reloads = some err) :
    handle s st Signal.SIGHUP =
      { st with
        trace := st.trace ++ [Event.Debugf "Trapped %q signal" Signal.SIGHUP] ++
          [Event.Reload, Event.Errorf "Failed to reload server configuration: %s" err]
        reloads := st.reloads + 1 } := by
  unfold handle
  rw [h]
  simp [Signal.SIGHUP, Signal.SIGUSR1, Signal.SIGINT, hr]

theorem handle_unhandled (s : Server) (st : Listener) (sig : Signal)
    (h : st.exited = none) (h1 : sig ≠ Signal.SIGINT) (h2 : sig ≠ Signal.SIGUSR1)
    (h3 : sig ≠ Signal.SIGHUP) :
    handle s st sig =
      { st with trace := st.trace ++ [Event.Debugf "Trapped %q signal" sig] } := by
  unfold handle
  rw [h]
  simp [h1, h2, h3]

/-- A signal other than SIGINT leaves the process running, and calls neither
`CloseUnixSocket` nor `os.Exit`; no iteration changes what is registered. -/
theorem handle_not_SIGINT (s : Server) (st : Listener) (sig : Signal)
    (h : st.exited = none) (hsig : sig ≠ Signal.SIGINT) :
    (handle s st sig).exited = none ∧
    (handle s st sig).trace.count Event.CloseUnixSocket =
      st.trace.count Event.CloseUnixSocket ∧
    (∀ code, (handle s st sig).trace.count (Event.Exit code) =
      st.trace.count (Event.Exit code)) := by
  unfold handle
  rw [h]
  dsimp only
  rw [if_neg hsig]
  split_ifs
  · simp [h, List.count_append]
  · split <;> simp [h, List.count_append]
  · simp [h, List.count_append]

theorem receiveLoop_no_SIGINT (s : Server) (sigs : List Signal) :
    ∀ (st : Listener), st.exited = none → Signal.SIGINT ∉ sigs →
      (receiveLoop s st sigs).exited = none ∧
      (receiveLoop s st sigs).trace.count Event.CloseUnixSocket =
        st.trace.count Event.CloseUnixSocket ∧
      (∀ code, (receiveLoop s st sigs).trace.count (Event.Exit code) =
        st.trace.count (Event.Exit code)) := by
  induction sigs with
  | nil => intro st h _; exact ⟨h, rfl, fun _ => rfl⟩
  | cons sig rest ih =>
    intro st h hno
    have hsig : sig ≠ Signal.SIGINT := fun e => hno (e ▸ List.mem_cons_self sig rest)
    have hrest : Signal.SIGINT ∉ rest := fun m => hno (List.mem_cons_of_mem sig m)
    obtain ⟨h1, h2, h3⟩ := handle_not_SIGINT s st sig h hsig
    obtain ⟨i1, i2, i3⟩ := ih (handle s st sig) h1 hrest
    unfold receiveLoop
    exact ⟨i1, i2.trans h2, fun code => (i3 code).trans (h3 code)⟩

theorem handle_notified (s : Server) (st : Listener) (sig : Signal) :
    (handle s st sig).notified = st.notified ∧ (handle s st sig).looping = st.looping := by
  unfold handle
  split
  · exact ⟨rfl, rfl⟩
  · dsimp only
    split_ifs
    · exact ⟨rfl, rfl⟩
    · exact ⟨rfl, rfl⟩
    · split <;> exact ⟨rfl, rfl⟩
    · exact ⟨rfl, rfl⟩

theorem receiveLoop_notified (s : Server) (sigs : List Signal) :
    ∀ (st : Listener), (receiveLoop s st sigs).notified = st.notified ∧
      (receiveLoop s st sigs).looping = st.looping := by
  induction sigs with
  | nil => intro st; exact ⟨rfl, rfl⟩
  | cons sig rest ih =>
    intro st
    unfold receiveLoop
    obtain ⟨h1, h2⟩ := handle_notified s st sig
    obtain ⟨i1, i2⟩ := ih (handle s st sig)
    exact ⟨i1.trans h1, i2.trans h2⟩

/-- What one iteration appends to the trace, and the state it leaves, depend
on the exit status and the number of reloads only, not on the trace so far. -/
theorem handle_events (s : Server) (sig : Signal) (st₁ st₂ : Listener)
    (he : st₁.exited = st₂.exited) (hr : st₁.reloads = st₂.reloads) :
    ∃ events, (handle s st₁ sig).trace = st₁.trace ++ events ∧
      (handle s st₂ sig).trace = st₂.trace ++ events ∧
      (handle s st₁ sig).exited = (handle s st₂ sig).exited ∧
      (handle s st₁ sig).reloads = (handle s st₂ sig).reloads := by
  obtain ⟨n₁, l₁, e₁, r₁, t₁⟩ := st₁
  obtain ⟨n₂, l₂, e₂, r₂, t₂⟩ := st₂
  dsimp only at he hr
  subst he
  subst hr
  unfold handle
  cases e₁ with
  | some code => exact ⟨[], by simp, by simp, rfl, rfl⟩
  | none =>
    dsimp only
    split_ifs
    · exact ⟨_, List.append_assoc _ _ _, List.append_assoc _ _ _, rfl, rfl⟩
    · exact ⟨_, List.append_assoc _ _ _, List.append_assoc _ _ _, rfl, rfl⟩
    · cases s.Reload r₁ with
      | none => exact ⟨_, List.append_assoc _ _ _, List.append_assoc _ _ _, rfl, rfl⟩
      | some err => exact ⟨_, List.append_assoc _ _ _, List.append_assoc _ _ _, rfl, rfl⟩
    · exact ⟨_, rfl, rfl, rfl, rfl⟩

theorem receiveLoop_events (s : Server) (sigs : List Signal) :
    ∀ (st₁ st₂ : Listener), st₁.exited = st₂.exited → st₁.reloads = st₂.reloads →
      ∃ events, (receiveLoop s st₁ sigs).trace = st₁.trace ++ events ∧
        (receiveLoop s st₂ sigs).trace = st₂.trace ++ events ∧
        (receiveLoop s st₁ sigs).exited = (receiveLoop s st₂ sigs).exited ∧
        (receiveLoop s st₁ sigs).reloads = (receiveLoop s st₂ sigs).reloads := by
  induction sigs with
  | nil => intro st₁ st₂ he hr; exact ⟨[], by simp [receiveLoop], by simp [receiveLoop], he, hr⟩
  | cons sig rest ih =>
    intro st₁ st₂ he hr
    obtain ⟨ev, h1, h2, h3, h4⟩ := handle_events s sig st₁ st₂ he hr
    obtain ⟨ev', i1, i2, i3, i4⟩ := ih (handle s st₁ sig) (handle s st₂ sig) h3 h4
    refine ⟨ev ++ ev', ?_, ?_, ?_, ?_⟩
    · rw [receiveLoop, i1, h1, List.append_assoc]
    · rw [receiveLoop, i2, h2, List.append_assoc]
    · rw [receiveLoop, receiveLoop, i3]
    · rw [receiveLoop, receiveLoop, i4]

/-! ## Claims C14 to C18: the listener -/

/-- C14. With `exited = none` for the state Running and `exited = some 0`
for ShuttingDown: on every sequence of received signals the process is
terminated at the first SIGINT and by no other signal. The signals before the
first SIGINT leave the process running and call neither `CloseUnixSocket` nor
`os.Exit`; the first SIGINT appends, after its debug line, `CloseUnixSocket`,
then the notice, then `os.Exit(0)`, so that `CloseUnixSocket` and `os.Exit(0)`
are called exactly once; and the signals after it change nothing. -/
theorem receiveLoop_exits_at_first_SIGINT (s : Server) (st : Listener)
    (before after : List Signal) (hrun : st.exited = none)
    (hbefore : Signal.SIGINT ∉ before) :
    (receiveLoop s st before).exited = none ∧
    receiveLoop s st (before ++ Signal.SIGINT :: after) =
      { receiveLoop s st before with
        trace := (receiveLoop s st before).trace ++
          [Event.Debugf "Trapped %q signal" Signal.SIGINT] ++
          [Event.CloseUnixSocket, Event.Noticef "Server Exiting..", Event.Exit 0]
        exited := some 0 } ∧
    (receiveLoop s st (before ++ Signal.SIGINT :: after)).trace.count Event.CloseUnixSocket =
      st.trace.count Event.CloseUnixSocket + 1 ∧
    (receiveLoop s st (before ++ Signal.SIGINT :: after)).trace.count (Event.Exit 0) =
      st.trace.count (Event.Exit 0) + 1 := by
  obtain ⟨h1, h2, h3⟩ := receiveLoop_no_SIGINT s before st hrun hbefore
  have hstep : receiveLoop s st (before ++ Signal.SIGINT :: after) =
      { receiveLoop s st before with
        trace := (receiveLoop s st before).trace ++
          [Event.Debugf "Trapped %q signal" Signal.SIGINT] ++
          [Event.CloseUnixSocket, Event.Noticef "Server Exiting..", Event.Exit 0]
        exited := some 0 } := by
    rw [receiveLoop_append, receiveLoop, handle_SIGINT s _ h1]
    exact receiveLoop_exited s after _ 0 rfl
  refine ⟨h1, hstep, ?_, ?_⟩
  · rw [hstep]
    simp [List.count_append, h2]
  · rw [hstep]
    simp [List.count_append, h3 0]

/-- C14, at a concrete input: SIGHUP, SIGINT, SIGUSR1, SIGINT received by a
fresh listener; the run ends at the first SIGINT. -/
theorem receiveLoop_exits_at_first_SIGINT_witness :
    (receiveLoop exampleServer Listener.idle
        [Signal.SIGHUP, Signal.SIGINT, Signal.SIGUSR1, Signal.SIGINT]).trace.count
      Event.CloseUnixSocket = 1 ∧
    (receiveLoop exampleServer Listener.idle
        [Signal.SIGHUP, Signal.SIGINT, Signal.SIGUSR1, Signal.SIGINT]).exited = some 0 :=
  ⟨(receiveLoop_exits_at_first_SIGINT exampleServer Listener.idle [Signal.SIGHUP]
      [Signal.SIGUSR1, Signal.SIGINT] rfl (by decide)).2.2.1,
   by decide⟩

/-- C15. For every SIGHUP received while the process runs, the listener calls
`Reload` exactly once and stays running. If `Reload` returns an error, the
listener appends, after the debug line and the call of `Reload`, one `Errorf`
line carrying that error, and does not exit; the signals received afterwards
append the same events and leave the same exit status as they do from the
state reached had the reload succeeded. -/
theorem handle_SIGHUP_reload (s : Server) (st : Listener) (hrun : st.exited = none) :
    (handle s st Signal.SIGHUP).trace.count Event.Reload = st.trace.count Event.Reload + 1 ∧
    (handle s st Signal.SIGHUP).reloads = st.reloads + 1 ∧
    (handle s st Signal.SIGHUP).exited = none ∧
    ∀ err, s.Reload st.reloads = some err →
      (handle s st Signal.SIGHUP).trace =
        st.trace ++ [Event.Debugf "Trapped %q signal" Signal.SIGHUP] ++
          [Event.Reload, Event.Errorf "Failed to reload server configuration: %s" err] ∧
      ∀ sigs, ∃ events,
        (receiveLoop s (handle s st Signal.SIGHUP) sigs).trace =
          (handle s st Signal.SIGHUP).trace ++ events ∧
        (receiveLoop s
            { st with
              trace := st.trace ++ [Event.Debugf "Trapped %q signal" Signal.SIGHUP] ++
                [Event.Reload]
              reloads := st.reloads + 1 } sigs).trace =
          (st.trace ++ [Event.Debugf "Trapped %q signal" Signal.SIGHUP] ++
            [Event.Reload]) ++ events ∧
        (receiveLoop s (handle s st Signal.SIGHUP) sigs).exited =
          (receiveLoop s
            { st with
              trace := st.trace ++ [Event.Debugf "Trapped %q signal" Signal.SIGHUP] ++
                [Event.Reload]
              reloads := st.reloads + 1 } sigs).exited := by
  cases hr : s.Reload st.reloads with
  | none =>
    rw [handle_SIGHUP_ok s st hrun hr]
    refine ⟨by simp [List.count_append], rfl, hrun, ?_⟩
    intro err he
    cases he
  | some e =>
    rw [handle_SIGHUP_error s st e hrun hr]
    refine ⟨by simp [List.count_append], rfl, hrun, ?_⟩
    intro err he
    injection he with he
    subst he
    refine ⟨rfl, ?_⟩
    intro sigs
    obtain ⟨events, h1, h2, h3, -⟩ := receiveLoop_events s sigs
      { st with
        trace := st.trace ++ [Event.Debugf "Trapped %q signal" Signal.SIGHUP] ++
          [Event.Reload, Event.Errorf "Failed to reload server configuration: %s" e]
        reloads := st.reloads + 1 }
      { st with
        trace := st.trace ++ [Event.Debugf "Trapped %q signal" Signal.SIGHUP] ++
          [Event.Reload]
        reloads := st.reloads + 1 } rfl rfl
    exact ⟨events, h1, h2, h3⟩

/-- C15, the scenario of the spec: the listener receives SIGHUP and `Reload`
returns an error; it logs the error, keeps running, and handles the SIGUSR1
that follows. -/
theorem handle_SIGHUP_reload_witness :
    (handle exampleServer Listener.idle Signal.SIGHUP).trace =
      [Event.Debugf "Trapped %q signal" Signal.SIGHUP, Event.Reload,
        Event.Errorf "Failed to reload server configuration: %s"
          (GoError.errorString "bad config")] ∧
    (handle exampleServer Listener.idle Signal.SIGHUP).exited = none ∧
    (receiveLoop exampleServer Listener.idle [Signal.SIGHUP, Signal.SIGUSR1]).trace =
      [Event.Debugf "Trapped %q signal" Signal.SIGHUP, Event.Reload,
        Event.Errorf "Failed to reload server configuration: %s"
          (GoError.errorString "bad config"),
        Event.Debugf "Trapped %q signal" Signal.SIGUSR1, Event.ReOpenLogFile] :=
  ⟨((handle_SIGHUP_reload exampleServer Listener.idle rfl).2.2.2
      (GoError.errorString "bad config") rfl).1,
   (handle_SIGHUP_reload exampleServer Listener.idle rfl).2.2.1,
   by decide⟩

/-- C16. The dispatcher and the listener agree. For a resolved pid, the one
signal `ProcessSignal` sends for `CommandQuit`, `CommandReopen` and
`CommandReload` is SIGINT, SIGUSR1 and SIGHUP, each among the signals that
`handleSignals` registers, and the running listener answers SIGINT with
`CloseUnixSocket`, the notice and `os.Exit(0)`, SIGUSR1 with `ReOpenLogFile`
and SIGHUP with `Reload`; the signal sent for `CommandStop` is SIGKILL, which
`handleSignals` does not register and on which the loop calls no callback. -/
theorem dispatcher_listener_agree (env : Env) (pidStr : String) (p : Int) (s : Server)
    (st : Listener) (received : List Signal) (h : Resolved env pidStr p)
    (hs : s.NoSigs = false) (hrun : st.exited = none) :
    ((ProcessSignal env CommandQuit pidStr).calls.filter Call.isKill =
        [Call.kill p Signal.SIGINT] ∧
      Signal.SIGINT ∈ (handleSignals s Listener.idle received).notified ∧
      (handle s st Signal.SIGINT).trace =
        st.trace ++ [Event.Debugf "Trapped %q signal" Signal.SIGINT] ++
          [Event.CloseUnixSocket, Event.Noticef "Server Exiting..", Event.Exit 0]) ∧
    ((ProcessSignal env CommandReopen pidStr).calls.filter Call.isKill =
        [Call.kill p Signal.SIGUSR1] ∧
      Signal.SIGUSR1 ∈ (handleSignals s Listener.idle received).notified ∧
      (handle s st Signal.SIGUSR1).trace =
        st.trace ++ [Event.Debugf "Trapped %q signal" Signal.SIGUSR1] ++
          [Event.ReOpenLogFile]) ∧
    ((ProcessSignal env CommandReload pidStr).calls.filter Call.isKill =
        [Call.kill p Signal.SIGHUP] ∧
      Signal.SIGHUP ∈ (handleSignals s Listener.idle received).notified ∧
      ((handle s st Signal.SIGHUP).trace.filter Event.isCallback =
        st.trace.filter Event.isCallback ++ [Event.Reload])) ∧
    ((ProcessSignal env CommandStop pidStr).calls.filter Call.isKill =
        [Call.kill p Signal.SIGKILL] ∧
      Signal.SIGKILL ∉ (handleSignals s Listener.idle received).notified ∧
      (handle s st Signal.SIGKILL).trace =
        st.trace ++ [Event.Debugf "Trapped %q signal" Signal.SIGKILL]) := by
  have hn : (handleSignals s Listener.idle received).notified =
      [Signal.SIGINT, Signal.SIGUSR1, Signal.SIGHUP] := by
    unfold handleSignals
    rw [hs]
    simp only [Bool.false_eq_true, if_false]
    rw [(receiveLoop_notified s received _).1]
    rfl
  have hk : ∀ (sig : Signal),
      ((if pidStr = "" then [Call.pgrep] else []) ++ [Call.kill p sig]).filter Call.isKill =
        [Call.kill p sig] := by
    intro sig
    split_ifs <;> simp [Call.isKill]
  have hS := ProcessSignal_resolved env CommandStop pidStr p h
  have hQ := ProcessSignal_resolved env CommandQuit pidStr p h
  have hO := ProcessSignal_resolved env CommandReopen pidStr p h
  have hL := ProcessSignal_resolved env CommandReload pidStr p h
  rw [dispatch_Stop] at hS
  rw [dispatch_Quit] at hQ
  rw [dispatch_Reopen] at hO
  rw [dispatch_Reload] at hL
  rw [hn, hS, hQ, hO, hL]
  refine ⟨⟨hk _, by decide, ?_⟩, ⟨hk _, by decide, ?_⟩, ⟨hk _, by decide, ?_⟩,
    ⟨hk _, by decide, ?_⟩⟩
  · rw [handle_SIGINT s st hrun]
  · rw [handle_SIGUSR1 s st hrun]
  · cases hr : s.Reload st.reloads with
    | none => rw [handle_SIGHUP_ok s st hrun hr]; simp [Event.isCallback]
    | some e => rw [handle_SIGHUP_error s st e hrun hr]; simp [Event.isCallback]
  · rw [handle_unhandled s st Signal.SIGKILL hrun (by decide) (by decide) (by decide)]

/-- C16, at a concrete input: the explicit pid 4321 and a fresh listener. -/
theorem dispatcher_listener_agree_witness :
    (ProcessSignal (exampleEnv "" none 1) CommandStop "4321").calls.filter Call.isKill =
      [Call.kill 4321 Signal.SIGKILL] ∧
    Signal.SIGKILL ∉ (handleSignals exampleServer Listener.idle []).notified ∧
    (handle exampleServer Listener.idle Signal.SIGKILL).trace =
      Listener.idle.trace ++ [Event.Debugf "Trapped %q signal" Signal.SIGKILL] :=
  (dispatcher_listener_agree (exampleEnv "" none 1) "4321" 4321 exampleServer
    Listener.idle [] (Or.inl ⟨by decide, by decide⟩) rfl rfl).2.2.2

/-- C17. For every signal among SIGINT, SIGUSR1 and SIGHUP received while the
process runs, the listener first appends one `Debugf` line naming the signal
and no other `Debugf` line, and then calls exactly one callback of the server:
`CloseUnixSocket` for SIGINT, `ReOpenLogFile` for SIGUSR1, `Reload` for
SIGHUP. -/
theorem handle_one_debug_line_one_callback (s : Server) (st : Listener)
    (hrun : st.exited = none) :
    (∃ rest, (handle s st Signal.SIGINT).trace =
        st.trace ++ Event.Debugf "Trapped %q signal" Signal.SIGINT :: rest ∧
      rest.filter Event.isDebugf = [] ∧
      rest.filter Event.isCallback = [Event.CloseUnixSocket]) ∧
    (∃ rest, (handle s st Signal.SIGUSR1).trace =
        st.trace ++ Event.Debugf "Trapped %q signal" Signal.SIGUSR1 :: rest ∧
      rest.filter Event.isDebugf = [] ∧
      rest.filter Event.isCallback = [Event.ReOpenLogFile]) ∧
    (∃ rest, (handle s st Signal.SIGHUP).trace =
        st.trace ++ Event.Debugf "Trapped %q signal" Signal.SIGHUP :: rest ∧
      rest.filter Event.isDebugf = [] ∧
      rest.filter Event.isCallback = [Event.Reload]) := by
  refine ⟨?_, ?_, ?_⟩
  · rw [handle_SIGINT s st hrun]
    exact ⟨[Event.CloseUnixSocket, Event.Noticef "Server Exiting..", Event.Exit 0],
      by simp, rfl, rfl⟩
  · rw [handle_SIGUSR1 s st hrun]
    exact ⟨[Event.ReOpenLogFile], by simp, rfl, rfl⟩
  · cases hr : s.Reload st.reloads with
    | none =>
      rw [handle_SIGHUP_ok s st hrun hr]
      exact ⟨[Event.Reload], by simp, rfl, rfl⟩
    | some e =>
      rw [handle_SIGHUP_error s st e hrun hr]
      exact ⟨[Event.Reload, Event.Errorf "Failed to reload server configuration: %s" e],
        by simp, rfl, rfl⟩

/-- C17, at a concrete input: SIGUSR1 received by a fresh listener. -/
theorem handle_one_debug_line_one_callback_witness :
    ∃ rest, (handle exampleServer Listener.idle Signal.SIGUSR1).trace =
        Listener.idle.trace ++ Event.Debugf "Trapped %q signal" Signal.SIGUSR1 :: rest ∧
      rest.filter Event.isDebugf = [] ∧
      rest.filter Event.isCallback = [Event.ReOpenLogFile] :=
  (handle_one_debug_line_one_callback exampleServer Listener.idle rfl).2.1

/-- C18. When the `NoSigs` option is set, `handleSignals` returns the listener
state unchanged, whatever signals arrive: nothing is registered, no loop is
started, no event happens. When it is not set, `handleSignals` registers
exactly SIGINT, SIGUSR1 and SIGHUP, in addition to nothing for a fresh
listener, and starts the loop. -/
theorem handleSignals_NoSigs (s : Server) (st : Listener) (received : List Signal) :
    (s.NoSigs = true → handleSignals s st received = st) ∧
    (s.NoSigs = false →
      (handleSignals s st received).notified =
        st.notified ++ [Signal.SIGINT, Signal.SIGUSR1, Signal.SIGHUP] ∧
      (handleSignals s st received).looping = true ∧
      (handleSignals s Listener.idle received).notified =
        [Signal.SIGINT, Signal.SIGUSR1, Signal.SIGHUP] ∧
      ∀ sig, sig ∈ (handleSignals s Listener.idle received).notified ↔
        sig = Signal.SIGINT ∨ sig = Signal.SIGUSR1 ∨ sig = Signal.SIGHUP) := by
  constructor
  · intro h
    unfold handleSignals
    rw [if_pos h]
  · intro h
    have hn : ∀ st' : Listener, (handleSignals s st' received).notified =
        st'.notified ++ [Signal.SIGINT, Signal.SIGUSR1, Signal.SIGHUP] := by
      intro st'
      unfold handleSignals
      rw [h]
      simp only [Bool.false_eq_true, if_false]
      rw [(receiveLoop_notified s received _).1]
    refine ⟨hn st, ?_, hn Listener.idle, ?_⟩
    · unfold handleSignals
      rw [h]
      simp only [Bool.false_eq_true, if_false]
      rw [(receiveLoop_notified s received _).2]
    · intro sig
      rw [hn Listener.idle]
      simp [Listener.idle]

/-- C18, at concrete inputs: with `NoSigs` set a SIGINT changes nothing; with
it unset the three signals are registered. -/
theorem handleSignals_NoSigs_witness :
    handleSignals ⟨true, fun _ => none⟩ Listener.idle [Signal.SIGINT] = Listener.idle ∧
    (handleSignals exampleServer Listener.idle [Signal.SIGUSR1]).notified =
      [Signal.SIGINT, Signal.SIGUSR1, Signal.SIGHUP] :=
  ⟨(handleSignals_NoSigs ⟨true, fun _ => none⟩ Listener.idle [Signal.SIGINT]).1 rfl,
   ((handleSignals_NoSigs exampleServer Listener.idle [Signal.SIGUSR1]).2 rfl).2.2.1⟩

/-! ## Claims C19 and C20: the resolver against its reference -/

/-- C19. Whenever `resolvePids` succeeds, every non-empty line of the output
has parsed and the result equals the reference list: the output split on
"\n", the empty lines dropped, each line parsed with `strconv.Atoi`, every
occurrence of the own pid removed, order and multiplicity kept. The
candidates are a list, not a set: when the non-empty lines of the output are
two lines holding one and the same pid `q`, not the own pid, `ProcessSignal`
with an empty `pidStr` fails with the multiple-processes error listing `q`
twice, and sends no signal. -/
theorem resolvePids_eq_referencePids (env : Env) :
    (∀ pids, (resolvePids env).2 = Except.ok pids →
      pids = referencePids env.pgrepOutput env.Getpid ∧
      (referencePids env.pgrepOutput env.Getpid).map some =
        (((Split env.pgrepOutput).filter (fun l => decide (l ≠ ""))).map Atoi).filter
          (fun r => decide (r ≠ some env.Getpid))) ∧
    (∀ (l₁ l₂ : String) (q : Int) (command : Command),
      ¬ pgrepFailed env →
      (Split env.pgrepOutput).filter (fun l => decide (l ≠ "")) = [l₁, l₂] →
      Atoi l₁ = some q → Atoi l₂ = some q → q ≠ env.Getpid →
      (resolvePids env).2 = Except.ok [q, q] ∧
      ProcessSignal env command "" =
        ⟨[Call.pgrep],
          some (errorsNew ("multiple gnatsd processes running:\n" ++
            String.intercalate "\n" [Sprintf_d q, Sprintf_d q]))⟩) := by
  constructor
  · intro pids h
    refine ⟨resolvePids_ok_inv env pids h, ?_⟩
    have hall := (resolvePids_ok_all_parse env pids h).2
    have hall' : ∀ l ∈ (Split env.pgrepOutput).filter (fun l => decide (l ≠ "")),
        ∃ n, Atoi l = some n := by
      intro l hl
      obtain ⟨h1, h2⟩ := List.mem_filter.1 hl
      exact hall l h1 (by simpa using h2)
    unfold referencePids candidates
    generalize (Split env.pgrepOutput).filter (fun l => decide (l ≠ "")) = lines at hall'
    induction lines with
    | nil => rfl
    | cons l rest ih =>
      obtain ⟨n, hn⟩ := hall' l (List.mem_cons_self l rest)
      have ih' := ih (fun l' hl' => hall' l' (List.mem_cons_of_mem l hl'))
      simp only [List.filterMap_cons, hn, List.map_cons, List.filter_cons]
      by_cases hown : n = env.Getpid
      · simp only [hown, ne_eq, not_true_eq_false, decide_False, Bool.false_eq_true,
          if_false]
        exact ih'
      · have h1 : decide (n ≠ env.Getpid) = true := by simpa using hown
        have h2 : decide (some n ≠ some env.Getpid) = true := by simpa using hown
        rw [if_pos h1, if_pos h2, List.map_cons, ih']
  · intro l₁ l₂ q command herr hlines h1 h2 hq
    have hall : ∀ l ∈ Split env.pgrepOutput, l ≠ "" → ∃ n, Atoi l = some n := by
      intro l hl hl0
      have hm : l ∈ (Split env.pgrepOutput).filter (fun l => decide (l ≠ "")) :=
        List.mem_filter.2 ⟨hl, by simpa using hl0⟩
      rw [hlines] at hm
      simp only [List.mem_cons, List.mem_singleton, List.mem_nil_iff, or_false] at hm
      rcases hm with e | e
      · exact ⟨q, e ▸ h1⟩
      · exact ⟨q, e ▸ h2⟩
    have hc : candidates env.Getpid (Split env.pgrepOutput) = [q, q] := by
      unfold candidates
      rw [hlines]
      simp [h1, h2, hq]
    have hr : (resolvePids env).2 = Except.ok [q, q] := by
      rw [resolvePids_ok env herr hall, hc]
    refine ⟨hr, ?_⟩
    rw [ProcessSignal_empty_many env command [q, q] hr (by simp), multipleLoop_eq]
    rfl

/-- C19, the example of the claim: the output "1234\n1234\n" makes
`ProcessSignal` fail with the multiple-processes error. -/
theorem resolvePids_eq_referencePids_witness :
    (resolvePids (exampleEnv "1234\n1234\n" none 1)).2 = Except.ok [1234, 1234] ∧
    ProcessSignal (exampleEnv "1234\n1234\n" none 1) CommandQuit "" =
      ⟨[Call.pgrep],
        some (errorsNew "multiple gnatsd processes running:\n1234\n1234")⟩ :=
  (resolvePids_eq_referencePids (exampleEnv "1234\n1234\n" none 1)).2 "1234" "1234" 1234
    CommandQuit (by rintro ⟨e, he, -⟩; cases he) (by decide) (by decide) (by decide)
    (by decide)

/-- C20. A non-zero-exit discovery error is ignored: for every output and own
pid, `resolvePids` given the output together with a non-zero-exit error returns
exactly what it returns for the same output with no error, and so does
`ProcessSignal`, for every command and `pidStr`. -/
theorem resolvePids_exit_error_ignored (output : String) (status : Int) (myPid : Int)
    (kill : Int → Signal → Option GoError) (Quote : String → String) :
    resolvePids ⟨output, some (GoError.ExitError status), myPid, kill, Quote⟩ =
      resolvePids ⟨output, none, myPid, kill, Quote⟩ ∧
    ∀ (command : Command) (pidStr : String),
      ProcessSignal ⟨output, some (GoError.ExitError status), myPid, kill, Quote⟩
          command pidStr =
        ProcessSignal ⟨output, none, myPid, kill, Quote⟩ command pidStr :=
  ⟨rfl, fun _ _ => rfl⟩

end server
